import Mathlib

/-!
# Verification of the `release-kit` Cloudflare deployment commands

A shallow embedding, in Lean 4, of the deployment-relevant code of
`crates/cli/src/commands/deploy.rs`:

* `derive_project_name` (the artist/album slugifier),
* the per-track upload task with its bounded retry loop,
* the `publish` orchestrator (modelled as an oracle-driven trace semantics:
  every network call's outcome is a field of an environment record, and the
  model returns the ordered list of externally visible actions together with
  the command's outcome),
* the `teardown` orchestrator and `empty_r2_bucket`.

Machine integers do not occur in the modelled code paths; strings are Lean
`String`s.  The tokio task pool of `publish` awaits every spawned task in
order, so the fan-out/join stage is modelled by sequencing each task's trace;
interleaving between sibling tasks is abstracted away (no claim below depends
on it).
-/

/-! ## Slugification (`derive_project_name`, deploy.rs lines 91-115) -/

/-- Rust's `char::is_whitespace`: the Unicode `White_Space` property
(code points U+0009-U+000D, U+0020, U+0085, U+00A0, U+1680, U+2000-U+200A,
U+2028, U+2029, U+202F, U+205F, U+3000). -/
def rustIsWhitespace (c : Char) : Bool :=
  (9 ≤ c.toNat && c.toNat ≤ 13) || c.toNat = 32 || c.toNat = 0x85 ||
  c.toNat = 0xA0 || c.toNat = 0x1680 ||
  (0x2000 ≤ c.toNat && c.toNat ≤ 0x200A) ||
  c.toNat = 0x2028 || c.toNat = 0x2029 || c.toNat = 0x202F ||
  c.toNat = 0x205F || c.toNat = 0x3000

/-- The character classifier inside `derive_project_name`'s `slugify` closure:
ASCII alphanumerics are kept, whitespace / `-` / `_` become `-`, and every
other character is mapped to `'\x00'` and later filtered out (the Rust code
maps dropped characters to `'\0'` and filters them).  `Char.isAlphanum`
coincides with Rust's `char::is_ascii_alphanumeric`. -/
def slugMapChar (c : Char) : Char :=
  if c.isAlphanum then c
  else if rustIsWhitespace c || c = '-' || c = '_' then '-'
  else '\x00'

/-- Rust's `str::split('-')` on a character list: splitting on every
occurrence of the separator, keeping empty chunks (they are filtered
afterwards by the Rust code, as in the model of `slugify` below). -/
def splitChar (sep : Char) : List Char → List (List Char)
  | [] => [[]]
  | c :: rest =>
    match splitChar sep rest with
    | [] => [[]]
    | h :: t => if c = sep then [] :: h :: t else (c :: h) :: t

/-- Rust's `Vec::join("-")` for the chunk lists produced by `splitChar`. -/
def joinChunks (sep : List Char) : List (List Char) → List Char
  | [] => []
  | [p] => p
  | p :: ps => p ++ sep ++ joinChunks sep ps

/-- The `slugify` closure of `derive_project_name`: lowercase, keep ASCII
alphanumerics, turn whitespace/`-`/`_` into `-`, drop the rest, then split on
`-`, discard empty segments and re-join with single `-`.  Rust lowercases the
whole string with the Unicode-aware `str::to_lowercase`; the model lowercases
character-wise with `Char.toLower` (identical on ASCII; non-ASCII characters
differ only in which non-ASCII character they become before being dropped by
the ASCII-alphanumeric filter). -/
def slugify (s : String) : String :=
  let cleaned := (s.data.map (fun c => slugMapChar c.toLower)).filter
    (fun c => c ≠ '\x00')
  let parts := (splitChar '-' cleaned).filter (fun l => l ≠ [])
  String.mk (joinChunks ['-'] parts)

/-- Model of `derive_project_name` (deploy.rs line 91): the name is
`{artist-slug}-{album-slug}`. -/
def derive_project_name (artist album : String) : String :=
  slugify artist ++ "-" ++ slugify album

example : derive_project_name "Artist Name" "My Album" = "artist-name-my-album" := by decide
example : derive_project_name "DJ K!ool" "Beats & Bass" = "dj-kool-beats-bass" := by decide
example : derive_project_name "Jay-Z" "The-Album" = "jay-z-the-album" := by decide
example : derive_project_name "" "" = "-" := by decide
example : derive_project_name "!!!" "abc" = "-abc" := by decide

/-! ## Shape of slugified names (claim C1) -/

/-- A character permitted in a slug segment: lowercase ASCII letter or digit. -/
def isSlugChar (c : Char) : Bool := c.isLower || c.isDigit

/-- No two adjacent `'-'` characters. -/
def noConsecutiveHyphens : List Char → Bool
  | [] => true
  | [_] => true
  | a :: b :: rest => !(a = '-' && b = '-') && noConsecutiveHyphens (b :: rest)

/-- A well-formed project name in the sense of the specification: nonempty,
only lowercase ASCII alphanumerics and hyphens, and no leading, trailing or
consecutive hyphens. -/
def goodProjectName (s : String) : Bool :=
  !s.data.isEmpty && !(s.data.head? == some '-') && !(s.data.getLast? == some '-')
    && noConsecutiveHyphens s.data && s.data.all (fun c => isSlugChar c || c == '-')

lemma char_toNat_ofNat (n : Nat) (h : n < 55296) : (Char.ofNat n).toNat = n := by
  unfold Char.ofNat
  rw [dif_pos (Or.inl h)]
  simp [Char.ofNatAux, Char.toNat, UInt32.toNat, UInt32.ofNat']

lemma isUpper_iff (c : Char) : c.isUpper = true ↔ 65 ≤ c.toNat ∧ c.toNat ≤ 90 := by
  simp [Char.isUpper, UInt32.le_def, BitVec.le_def, Char.toNat, UInt32.toNat]

lemma toLower_not_upper (c : Char) : (Char.toLower c).isUpper = false := by
  unfold Char.toLower
  simp only []
  split
  · next hn =>
    have h2 : (Char.ofNat (c.toNat + 32)).toNat = c.toNat + 32 :=
      char_toNat_ofNat _ (by omega)
    rw [Bool.eq_false_iff]
    intro hu
    rw [isUpper_iff] at hu
    omega
  · next hn =>
    rw [Bool.eq_false_iff]
    intro hu
    rw [isUpper_iff] at hu
    omega

lemma slugMapChar_class (c : Char) (h : slugMapChar c.toLower ≠ '\x00') :
    (isSlugChar (slugMapChar c.toLower) || slugMapChar c.toLower == '-') = true := by
  unfold slugMapChar at *
  by_cases ha : (c.toLower).isAlphanum = true
  · have hld : (c.toLower.isLower || c.toLower.isDigit) = true := by
      unfold Char.isAlphanum Char.isAlpha at ha
      rw [toLower_not_upper c] at ha
      simpa using ha
    simp only [ha, if_pos]
    simp [isSlugChar, hld]
  · simp only [Bool.not_eq_true] at ha
    simp only [ha, Bool.false_eq_true, if_false] at *
    by_cases hw : (rustIsWhitespace c.toLower || c.toLower = '-' || c.toLower = '_') = true
    · simp [hw]
    · simp only [Bool.not_eq_true] at hw
      simp [hw] at h

lemma splitChar_ne_nil (sep : Char) (xs : List Char) : splitChar sep xs ≠ [] := by
  cases xs with
  | nil => simp [splitChar]
  | cons c rest =>
    simp only [splitChar]
    rcases hsp : splitChar sep rest with _ | ⟨h, t⟩ <;> by_cases hc : c = sep <;> simp [hc]

lemma mem_splitChar_no_sep (sep : Char) (xs : List Char) :
    ∀ l ∈ splitChar sep xs, sep ∉ l := by
  induction xs with
  | nil =>
    intro l hl
    simp [splitChar] at hl
    simp [hl]
  | cons c rest ih =>
    intro l hl
    simp only [splitChar] at hl
    cases hsp : splitChar sep rest with
    | nil => exact absurd hsp (splitChar_ne_nil sep rest)
    | cons h t =>
      rw [hsp] at hl
      have iht : ∀ l' ∈ h :: t, sep ∉ l' := by
        intro l' hl'
        exact ih l' (hsp ▸ hl')
      by_cases hc : c = sep
      · simp only [hc, if_pos rfl] at hl
        rcases List.mem_cons.mp hl with hl | hl
        · simp [hl]
        · exact iht l hl
      · simp only [if_neg hc] at hl
        rcases List.mem_cons.mp hl with hl | hl
        · subst hl
          intro hmem
          rcases List.mem_cons.mp hmem with h1 | h1
          · exact hc h1.symm
          · exact iht h (List.mem_cons_self h t) h1
        · exact iht l (List.mem_cons_of_mem h hl)

lemma mem_splitChar_subset (sep : Char) (xs : List Char) :
    ∀ l ∈ splitChar sep xs, ∀ a ∈ l, a ∈ xs := by
  induction xs with
  | nil =>
    intro l hl
    simp [splitChar] at hl
    simp [hl]
  | cons c rest ih =>
    intro l hl a ha
    simp only [splitChar] at hl
    cases hsp : splitChar sep rest with
    | nil => exact absurd hsp (splitChar_ne_nil sep rest)
    | cons h t =>
      rw [hsp] at hl
      have iht : ∀ l' ∈ h :: t, ∀ a' ∈ l', a' ∈ rest := by
        intro l' hl'
        exact ih l' (hsp ▸ hl')
      by_cases hc : c = sep
      · simp only [hc, if_pos rfl] at hl
        rcases List.mem_cons.mp hl with hl | hl
        · subst hl; simp at ha
        · exact List.mem_cons_of_mem c (iht l hl a ha)
      · simp only [if_neg hc] at hl
        rcases List.mem_cons.mp hl with hl | hl
        · subst hl
          rcases List.mem_cons.mp ha with h1 | h1
          · exact h1 ▸ List.mem_cons_self c rest
          · exact List.mem_cons_of_mem c (iht h (List.mem_cons_self h t) a h1)
        · exact List.mem_cons_of_mem c (iht l (List.mem_cons_of_mem h hl) a ha)

lemma noConsec_of_no_hyphen (l : List Char) (h : ∀ c ∈ l, c ≠ '-') :
    noConsecutiveHyphens l = true := by
  induction l with
  | nil => rfl
  | cons a rest ih =>
    cases rest with
    | nil => rfl
    | cons b t =>
      have ha : a ≠ '-' := h a (List.mem_cons_self a _)
      have ht : noConsecutiveHyphens (b :: t) = true :=
        ih fun c hc => h c (List.mem_cons_of_mem a hc)
      simp [noConsecutiveHyphens, ha, ht]

lemma noConsec_cons_of_ne (a : Char) (l : List Char) (ha : a ≠ '-')
    (h : noConsecutiveHyphens l = true) : noConsecutiveHyphens (a :: l) = true := by
  cases l with
  | nil => rfl
  | cons b t => simp [noConsecutiveHyphens, ha, h]

lemma noConsec_hyphen_cons (l : List Char) (h : l.head? ≠ some '-')
    (hl : noConsecutiveHyphens l = true) : noConsecutiveHyphens ('-' :: l) = true := by
  cases l with
  | nil => rfl
  | cons b t =>
    have hb : b ≠ '-' := by
      intro hb
      exact h (by simp [hb])
    simp [noConsecutiveHyphens, hb, hl]

lemma noConsec_append (xs ys : List Char) (hx : noConsecutiveHyphens xs = true)
    (hy : noConsecutiveHyphens ys = true)
    (hb : xs.getLast? ≠ some '-' ∨ ys.head? ≠ some '-') :
    noConsecutiveHyphens (xs ++ ys) = true := by
  induction xs with
  | nil => simpa
  | cons a rest ih =>
    cases rest with
    | nil =>
      cases ys with
      | nil => simpa using hx
      | cons b t =>
        have hab : ¬(a = '-' ∧ b = '-') := by
          rintro ⟨h1, h2⟩
          rcases hb with hb | hb
          · exact hb (by simp [h1])
          · exact hb (by simp [h2])
        simp only [List.singleton_append, noConsecutiveHyphens, hy, Bool.and_true]
        simp only [Bool.not_eq_eq_eq_not, Bool.not_true, Bool.and_eq_false_imp,
          decide_eq_true_eq, decide_eq_false_iff_not]
        intro h1
        exact fun h2 => hab ⟨h1, h2⟩
    | cons a2 rest2 =>
      have hx2 : noConsecutiveHyphens (a2 :: rest2) = true := by
        simp only [noConsecutiveHyphens, Bool.and_eq_true] at hx
        exact hx.2
      have hpair : ¬(a = '-' ∧ a2 = '-') := by
        simp only [noConsecutiveHyphens, Bool.and_eq_true] at hx
        rcases hx with ⟨h1, _⟩
        simp only [Bool.not_eq_eq_eq_not, Bool.not_true, Bool.and_eq_false_imp,
          decide_eq_true_eq, decide_eq_false_iff_not] at h1
        rintro ⟨ha, hb2⟩
        exact h1 ha hb2
      have hb2 : (a2 :: rest2).getLast? ≠ some '-' ∨ ys.head? ≠ some '-' := by
        rcases hb with hb | hb
        · left
          rwa [List.getLast?_cons_cons] at hb
        · right; exact hb
      have hjoin := ih hx2 hb2
      have hrw : (a2 :: rest2) ++ ys = a2 :: (rest2 ++ ys) := rfl
      rw [hrw] at hjoin
      show noConsecutiveHyphens (a :: a2 :: (rest2 ++ ys)) = true
      simp only [noConsecutiveHyphens, Bool.and_eq_true]
      refine ⟨?_, hjoin⟩
      simp only [Bool.not_eq_eq_eq_not, Bool.not_true, Bool.and_eq_false_imp,
        decide_eq_true_eq, decide_eq_false_iff_not]
      intro h1
      exact fun h2 => hpair ⟨h1, h2⟩

lemma mem_joinChunks (sep : List Char) (parts : List (List Char)) :
    ∀ c ∈ joinChunks sep parts, c ∈ sep ∨ ∃ p ∈ parts, c ∈ p := by
  induction parts with
  | nil => simp [joinChunks]
  | cons p ps ih =>
    cases ps with
    | nil =>
      intro c hc
      right
      exact ⟨p, List.mem_cons_self p _, by simpa [joinChunks] using hc⟩
    | cons q qs =>
      intro c hc
      have hj : joinChunks sep (p :: q :: qs) = p ++ sep ++ joinChunks sep (q :: qs) := rfl
      rw [hj] at hc
      rcases List.mem_append.mp hc with hc | hc
      · rcases List.mem_append.mp hc with hc | hc
        · exact Or.inr ⟨p, List.mem_cons_self p _, hc⟩
        · exact Or.inl hc
      · rcases ih c hc with hc | ⟨r, hr, hcr⟩
        · exact Or.inl hc
        · exact Or.inr ⟨r, List.mem_cons_of_mem p hr, hcr⟩

lemma joinChunks_good (parts : List (List Char)) (hne : parts ≠ [])
    (h1 : ∀ p ∈ parts, p ≠ [])
    (h2 : ∀ p ∈ parts, ∀ c ∈ p, c ≠ '-') :
    joinChunks ['-'] parts ≠ [] ∧
    (joinChunks ['-'] parts).head? ≠ some '-' ∧
    (joinChunks ['-'] parts).getLast? ≠ some '-' ∧
    noConsecutiveHyphens (joinChunks ['-'] parts) = true := by
  induction parts with
  | nil => exact absurd rfl hne
  | cons p ps ih =>
    have hpne : p ≠ [] := h1 p (List.mem_cons_self p _)
    have hpclean : ∀ c ∈ p, c ≠ '-' := h2 p (List.mem_cons_self p _)
    have hphead : p.head? ≠ some '-' := by
      cases hh : p.head? with
      | none => simp
      | some c =>
        have : c ∈ p := List.mem_of_mem_head? (by rw [hh]; rfl)
        simp [hpclean c this]
    have hplast : p.getLast? ≠ some '-' := by
      cases hh : p.getLast? with
      | none => simp
      | some c =>
        have : c ∈ p := List.mem_of_mem_getLast? (by rw [hh]; rfl)
        simp [hpclean c this]
    cases ps with
    | nil =>
      have hj : joinChunks ['-'] [p] = p := rfl
      rw [hj]
      exact ⟨hpne, hphead, hplast, noConsec_of_no_hyphen p hpclean⟩
    | cons q qs =>
      obtain ⟨jne, jh, jl, jc⟩ := ih (by simp)
        (fun r hr => h1 r (List.mem_cons_of_mem p hr))
        (fun r hr => h2 r (List.mem_cons_of_mem p hr))
      have hj : joinChunks ['-'] (p :: q :: qs)
          = p ++ ['-'] ++ joinChunks ['-'] (q :: qs) := rfl
      rw [hj, List.append_assoc, List.singleton_append]
      set rest := joinChunks ['-'] (q :: qs) with hrest
      constructor
      · simp [hpne]
      constructor
      · rcases List.exists_cons_of_ne_nil hpne with ⟨c, p', hp⟩
        subst hp
        simp only [List.cons_append, List.head?_cons]
        simpa using hpclean c (List.mem_cons_self c p')
      constructor
      · rw [List.getLast?_append_of_ne_nil p (by simp)]
        cases hre : rest with
        | nil => exact absurd hre jne
        | cons z zs =>
          rw [List.getLast?_cons_cons]
          rw [hre] at jl
          exact jl
      · apply noConsec_append p ('-' :: rest) (noConsec_of_no_hyphen p hpclean)
          (noConsec_hyphen_cons rest jh jc)
        exact Or.inl hplast

/-- Structural invariant of a nonempty `slugify` output: nonempty, no hyphen
at either end, no consecutive hyphens, and only lowercase ASCII alphanumerics
or hyphens. -/
def GoodSlug (l : List Char) : Prop :=
  l ≠ [] ∧ l.head? ≠ some '-' ∧ l.getLast? ≠ some '-' ∧
    noConsecutiveHyphens l = true ∧
    ∀ c ∈ l, (isSlugChar c || c == '-') = true

lemma slugify_structure (s : String) :
    slugify s = "" ∨ GoodSlug (slugify s).data := by
  have hrfl : slugify s = String.mk (joinChunks ['-']
      (((splitChar '-' ((s.data.map (fun c => slugMapChar c.toLower)).filter
        (fun c => c ≠ '\x00')))).filter (fun l => l ≠ []))) := rfl
  set cleaned := (s.data.map (fun c => slugMapChar c.toLower)).filter
    (fun c => c ≠ '\x00') with hcl
  set parts := (splitChar '-' cleaned).filter (fun l => l ≠ []) with hpartsdef
  have h1 : ∀ p ∈ parts, p ≠ [] := by
    intro p hp
    have := (List.mem_filter.mp hp).2
    simpa using this
  have hsub : ∀ p ∈ parts, p ∈ splitChar '-' cleaned :=
    fun p hp => (List.mem_filter.mp hp).1
  have h2 : ∀ p ∈ parts, ∀ c ∈ p, c ≠ '-' := by
    intro p hp c hc hcontra
    subst hcontra
    exact mem_splitChar_no_sep '-' cleaned p (hsub p hp) hc
  have hchar : ∀ c ∈ cleaned, (isSlugChar c || c == '-') = true := by
    intro c hc
    rw [hcl] at hc
    have hf := List.mem_filter.mp hc
    rcases List.mem_map.mp hf.1 with ⟨d, _, hd⟩
    subst hd
    apply slugMapChar_class
    simpa using hf.2
  cases hp : parts with
  | nil =>
    left
    rw [hrfl, hp]
    rfl
  | cons p ps =>
    right
    obtain ⟨jne, jh, jl, jc⟩ := joinChunks_good parts (by rw [hp]; simp) h1 h2
    rw [hrfl]
    refine ⟨by simpa using jne, jh, jl, jc, ?_⟩
    intro c hc
    rcases mem_joinChunks ['-'] parts c hc with hsep | ⟨p', hp', hc'⟩
    · simp only [List.mem_singleton] at hsep
      simp [hsep]
    · exact hchar c (mem_splitChar_subset '-' cleaned p' (hsub p' hp') c hc')

lemma derive_data (a b : String) :
    (derive_project_name a b).data = (slugify a).data ++ '-' :: (slugify b).data := by
  unfold derive_project_name
  rw [String.data_append, String.data_append, List.append_assoc]
  rfl

lemma string_eq_empty_iff (s : String) : s = "" ↔ s.data = [] := by
  cases s with
  | mk d =>
    constructor
    · intro h
      have h2 : d = ("" : String).data := congrArg String.data h
      simpa using h2
    · intro h
      subst h
      rfl

/-- C1. `derive_project_name` is a pure function (determinism on repeated
calls is definitional in the embedding), and its output is made only of
lowercase ASCII alphanumerics and hyphens with no consecutive hyphens; when
*both* inputs slugify to nonempty strings there is additionally no leading or
trailing hyphen; when both slugify to empty the result is exactly `"-"`; when
exactly the artist (resp. album) slugifies to empty, the result is
`"-" ++ album-slug` (resp. `artist-slug ++ "-"`), carrying a single leading
(resp. trailing) hyphen and no hyphen at the other end; and the four concrete
examples of the specification hold.  (The specification's stronger phrasing —
no leading/trailing hyphen except when *both* inputs slugify to empty — fails
in exactly those mixed cases; see the counterexample.) -/
theorem c1_derive_project_name_shape (a b : String) :
    (∀ c ∈ (derive_project_name a b).data, (isSlugChar c || c == '-') = true) ∧
    noConsecutiveHyphens (derive_project_name a b).data = true ∧
    (slugify a ≠ "" → slugify b ≠ "" → goodProjectName (derive_project_name a b) = true) ∧
    (slugify a = "" → slugify b = "" → derive_project_name a b = "-") ∧
    (slugify a = "" → slugify b ≠ "" →
      derive_project_name a b = "-" ++ slugify b ∧
      (derive_project_name a b).data.head? = some '-' ∧
      (derive_project_name a b).data.getLast? ≠ some '-') ∧
    (slugify a ≠ "" → slugify b = "" →
      derive_project_name a b = slugify a ++ "-" ∧
      (derive_project_name a b).data.getLast? = some '-' ∧
      (derive_project_name a b).data.head? ≠ some '-') ∧
    derive_project_name "Artist Name" "My Album" = "artist-name-my-album" ∧
    derive_project_name "DJ K!ool" "Beats & Bass" = "dj-kool-beats-bass" ∧
    derive_project_name "Jay-Z" "The-Album" = "jay-z-the-album" ∧
    derive_project_name "" "" = "-" := by
  have hdata := derive_data a b
  have hchar : ∀ c ∈ (derive_project_name a b).data, (isSlugChar c || c == '-') = true := by
    intro c hc
    rw [hdata] at hc
    rcases List.mem_append.mp hc with hc | hc
    · rcases slugify_structure a with ha | ha
      · rw [(string_eq_empty_iff _).mp ha] at hc
        simp at hc
      · exact ha.2.2.2.2 c hc
    · rcases List.mem_cons.mp hc with hc | hc
      · simp [hc]
      · rcases slugify_structure b with hb | hb
        · rw [(string_eq_empty_iff _).mp hb] at hc
          simp at hc
        · exact hb.2.2.2.2 c hc
  have hnc : noConsecutiveHyphens (derive_project_name a b).data = true := by
    rw [hdata]
    rcases slugify_structure a with ha | ha <;> rcases slugify_structure b with hb | hb
    · rw [(string_eq_empty_iff _).mp ha, (string_eq_empty_iff _).mp hb]
      rfl
    · rw [(string_eq_empty_iff _).mp ha]
      simp only [List.nil_append]
      exact noConsec_hyphen_cons _ hb.2.1 hb.2.2.2.1
    · rw [(string_eq_empty_iff _).mp hb]
      exact noConsec_append _ _ ha.2.2.2.1 rfl (Or.inl ha.2.2.1)
    · exact noConsec_append _ _ ha.2.2.2.1
        (noConsec_hyphen_cons _ hb.2.1 hb.2.2.2.1) (Or.inl ha.2.2.1)
  refine ⟨hchar, hnc, ?_, ?_, ?_, ?_, by decide, by decide, by decide, by decide⟩
  · intro hna hnb
    have ha := (slugify_structure a).resolve_left hna
    have hb := (slugify_structure b).resolve_left hnb
    obtain ⟨hane, hah, hal, hac, haall⟩ := ha
    obtain ⟨hbne, hbh, hbl, hbc, hball⟩ := hb
    rcases List.exists_cons_of_ne_nil hane with ⟨c0, xa, hxa⟩
    rcases List.exists_cons_of_ne_nil hbne with ⟨d0, xb, hxb⟩
    have hc0 : c0 ≠ '-' := by
      rw [hxa] at hah
      simpa using hah
    simp only [goodProjectName, Bool.and_eq_true]
    refine ⟨⟨⟨⟨?_, ?_⟩, ?_⟩, hnc⟩, ?_⟩
    · rw [hdata, hxa]
      simp
    · rw [hdata, hxa]
      simp [hc0]
    · rw [hdata]
      rw [List.getLast?_append_of_ne_nil (slugify a).data (by simp)]
      rw [hxb, List.getLast?_cons_cons, ← hxb]
      simpa using hbl
    · rw [List.all_eq_true]
      intro c hcmem
      exact hchar c hcmem
  · intro h1 h2
    unfold derive_project_name
    rw [h1, h2]
    decide
  · intro ha hbne
    obtain ⟨hbne2, hbh, hbl, hbc, hball⟩ := (slugify_structure b).resolve_left hbne
    have heq : derive_project_name a b = "-" ++ slugify b := by
      unfold derive_project_name
      rw [ha]
      have h0 : ("" ++ "-" : String) = "-" := by decide
      rw [h0]
    have hdat : (derive_project_name a b).data = '-' :: (slugify b).data := by
      rw [heq, String.data_append]
      rfl
    refine ⟨heq, ?_, ?_⟩
    · rw [hdat]
      rfl
    · rw [hdat]
      rcases List.exists_cons_of_ne_nil hbne2 with ⟨d0, xb, hxb⟩
      rw [hxb, List.getLast?_cons_cons, ← hxb]
      exact hbl
  · intro hane hb
    obtain ⟨hane2, hah, hal, hac, haall⟩ := (slugify_structure a).resolve_left hane
    have heq : derive_project_name a b = slugify a ++ "-" := by
      unfold derive_project_name
      rw [hb]
      exact String.append_empty _
    have hdat : (derive_project_name a b).data = (slugify a).data ++ ['-'] := by
      rw [heq, String.data_append]
    refine ⟨heq, ?_, ?_⟩
    · rw [hdat, List.getLast?_append_of_ne_nil (slugify a).data (by simp)]
      rfl
    · rw [hdat]
      rcases List.exists_cons_of_ne_nil hane2 with ⟨c0, xa, hxa⟩
      rw [hxa]
      simp only [List.cons_append, List.head?_cons]
      rw [hxa] at hah
      simpa using hah

/-- C1 counterexample.  With artist `"!!!"` and album `"abc"` only the
artist slugifies to empty, which is not the claim's exceptional case (both
inputs slugifying to empty), yet the derived name `"-abc"` carries a leading
hyphen. -/
theorem c1_counterexample :
    derive_project_name "!!!" "abc" = "-abc" ∧
    slugify "!!!" = "" ∧ slugify "abc" = "abc" ∧
    goodProjectName (derive_project_name "!!!" "abc") = false := by decide

/-- Witness for `c1_derive_project_name_shape` at concrete inputs, one per
hypothesis-bearing conjunct: a both-nonempty pair, an artist-only-empty pair
(single leading hyphen) and an album-only-empty pair (single trailing
hyphen). -/
theorem c1_derive_project_name_shape_witness :
    goodProjectName (derive_project_name "Jay-Z" "The Album 2") = true ∧
    derive_project_name "!!!" "Great Album" = "-" ++ slugify "Great Album" ∧
    derive_project_name "Good Artist" "???" = slugify "Good Artist" ++ "-" ∧
    (derive_project_name "Good Artist" "???").data.getLast? = some '-' := by
  have h1 := c1_derive_project_name_shape "Jay-Z" "The Album 2"
  have h2 := c1_derive_project_name_shape "!!!" "Great Album"
  have h3 := c1_derive_project_name_shape "Good Artist" "???"
  exact ⟨h1.2.2.1 (by decide) (by decide),
    (h2.2.2.2.2.1 (by decide) (by decide)).1,
    (h3.2.2.2.2.2.1 (by decide) (by decide)).1,
    (h3.2.2.2.2.2.1 (by decide) (by decide)).2.1⟩

/-! ## Events of the deployment orchestrators

Every externally visible action of `publish` / `teardown` (an HTTP call
against the Cloudflare API, a PUT against the R2 storage endpoint, a backoff
sleep, the interactive confirmation prompt, a printed warning, the local site
build) is recorded as one `Event`; the models below return the ordered list
of events next to the command's outcome. -/

/-- The `content` of a created CNAME record distinguishes the two
`create_dns_record` call sites of `publish`: the R2 custom-domain record
points at `{account_id}.r2.cloudflarestorage.com`, the Pages record at
`{project_name}.pages.dev`. -/
inductive DnsContent
  | r2Storage (accountId : String)
  | pagesDev (projectName : String)
deriving DecidableEq, Repr

inductive Event
  | getPagesProject
  | promptConfirm
  | getR2Bucket
  | createR2Bucket
  | putObject (key : String) (attempt : Nat)
  | sleep (secs : Nat)
  | warn (msg : String)
  | configureCors
  | addCustomDomain (domain : String)
  | getDnsZone (domain : String)
  | createDnsRecord (name : String) (content : DnsContent)
  | buildSite
  | createPagesProject
  | uploadDeployment
  | deletePagesProject
  | listObjects
  | deleteObject (key : String)
  | listMultipartUploads
  | abortMultipartUpload (key : String)
  | deleteR2Bucket
deriving DecidableEq, Repr

/-- Outcome of a `publish` invocation. -/
inductive PublishResult
  | fatal (msg : String)
  | cancelled
  | published (cdnUrl : String) (deploymentUrl : String)
deriving DecidableEq, Repr

/-- Outcome of a `teardown` invocation (`cancelled` and `success` are both
`Ok(())` in Rust; they are split so the model can state which path ran). -/
inductive TeardownResult
  | fatal (msg : String)
  | cancelled
  | success
deriving DecidableEq, Repr

/-! ## The per-track upload task (deploy.rs lines 1094-1138) -/

/-- One audio track of the album, together with the oracle describing how the
outside world answers the task's actions: whether the local file exists
(line 1071), whether reading it succeeds (line 1107), and for every attempt
number the outcome of the `put_object_with_content_type` PUT (line 1114;
`none` = success, `some e` = error message). -/
structure Track where
  file : String
  fileExists : Bool
  read : Option String
  put : Nat → Option String

/-- The retry loop of the spawned upload task (lines 1111-1137): iterate over
the remaining attempt numbers; a successful PUT returns the filename at once;
a failed attempt stores the error and sleeps `attempt` seconds unless it was
the last attempt; exhaustion produces
`"{file}: Failed after 5 attempts - {last_error}"`. -/
def retryLoop (file : String) (put : Nat → Option String) :
    List Nat → Option String → List Event × Option String
  | [], lastErr =>
    ([], some (file ++ ": Failed after 5 attempts - " ++ lastErr.getD ""))
  | attempt :: rest, _ =>
    match put attempt with
    | none => ([Event.putObject file attempt], none)
    | some e =>
      let tail := retryLoop file put rest (some e)
      if rest.isEmpty then (Event.putObject file attempt :: tail.1, tail.2)
      else (Event.putObject file attempt :: Event.sleep attempt :: tail.1, tail.2)

/-- A whole upload task (lines 1094-1138): read the file, then run the retry
loop over attempts `1..=5`.  Returns the task's events and `none` on success
or the task's error message. -/
def uploadTask (t : Track) : List Event × Option String :=
  match t.read with
  | some e => ([], some ("Failed to read file for upload: " ++ e))
  | none => retryLoop t.file t.put [1, 2, 3, 4, 5] none

/-- The fan-out/join stage (lines 1067-1161): tracks whose audio file is
missing are skipped with a warning (line 1071); every other track's task runs
to its terminal state, errors are collected in order, successes counted.
Returns (events, failure list, success count). -/
def uploadsStage : List Track → List Event × List String × Nat
  | [] => ([], [], 0)
  | t :: rest =>
    if t.fileExists then
      let task := uploadTask t
      let later := uploadsStage rest
      match task.2 with
      | none => (task.1 ++ later.1, later.2.1, later.2.2 + 1)
      | some e => (task.1 ++ later.1, e :: later.2.1, later.2.2)
    else uploadsStage rest

/-- The canonical event trace of a task that makes `k` attempts: a PUT for
each attempt `1..=k` with a sleep of `i` seconds after attempt `i` for every
non-final attempt. -/
def attemptsTrace (file : String) (k : Nat) : List Event :=
  (List.range k).flatMap fun j =>
    Event.putObject file (j + 1) ::
      (if j + 1 < k then [Event.sleep (j + 1)] else [])

lemma uploadsStage_append (l1 l2 : List Track) :
    uploadsStage (l1 ++ l2) =
      ((uploadsStage l1).1 ++ (uploadsStage l2).1,
       (uploadsStage l1).2.1 ++ (uploadsStage l2).2.1,
       (uploadsStage l1).2.2 + (uploadsStage l2).2.2) := by
  induction l1 with
  | nil => simp [uploadsStage]
  | cons t rest ih =>
    by_cases hex : t.fileExists = true
    · cases htask : (uploadTask t).2 with
      | none =>
        simp only [List.cons_append, uploadsStage, hex, if_pos, htask, List.append_eq]
        rw [ih]
        simp [Prod.ext_iff]
        omega
      | some e =>
        simp only [List.cons_append, uploadsStage, hex, if_pos, htask, List.append_eq]
        rw [ih]
        simp [Prod.ext_iff]
    · simp only [Bool.not_eq_true] at hex
      simp only [List.cons_append, uploadsStage, hex, Bool.false_eq_true, if_false,
        List.append_eq]
      exact ih

lemma uploadsStage_events (tracks : List Track) :
    (uploadsStage tracks).1 =
      tracks.flatMap fun t => if t.fileExists then (uploadTask t).1 else [] := by
  induction tracks with
  | nil => simp [uploadsStage]
  | cons t rest ih =>
    by_cases hex : t.fileExists = true
    · cases htask : (uploadTask t).2 with
      | none => simp [uploadsStage, hex, htask, ih]
      | some e => simp [uploadsStage, hex, htask, ih]
    · simp only [Bool.not_eq_true] at hex
      simp [uploadsStage, hex, ih]

lemma uploadsStage_mem_fail (tracks : List Track) (t : Track) (ht : t ∈ tracks)
    (hex : t.fileExists = true) (e : String) (he : (uploadTask t).2 = some e) :
    e ∈ (uploadsStage tracks).2.1 := by
  induction tracks with
  | nil => simp at ht
  | cons t0 rest ih =>
    rcases List.mem_cons.mp ht with ht | ht
    · subst ht
      simp [uploadsStage, hex, he]
    · by_cases hex0 : t0.fileExists = true
      · cases htask : (uploadTask t0).2 with
        | none => simpa [uploadsStage, hex0, htask] using ih ht
        | some e0 =>
          simp only [uploadsStage, hex0, if_pos, htask]
          exact List.mem_cons_of_mem e0 (ih ht)
      · simp only [Bool.not_eq_true] at hex0
        simpa [uploadsStage, hex0] using ih ht

lemma retryLoop_events_class (f : String) (put : Nat → Option String)
    (l : List Nat) (le : Option String) :
    ∀ ev ∈ (retryLoop f put l le).1,
      (∃ k a, ev = Event.putObject k a) ∨ ∃ s, ev = Event.sleep s := by
  induction l generalizing le with
  | nil => simp [retryLoop]
  | cons attempt rest ih =>
    intro ev hev
    simp only [retryLoop] at hev
    cases hp : put attempt with
    | none =>
      rw [hp] at hev
      simp at hev
      exact Or.inl ⟨f, attempt, hev⟩
    | some e =>
      rw [hp] at hev
      by_cases hrest : rest.isEmpty
      · simp only [hrest, if_pos] at hev
        rcases List.mem_cons.mp hev with hev | hev
        · exact Or.inl ⟨f, attempt, hev⟩
        · exact ih (some e) ev hev
      · simp only [hrest, Bool.false_eq_true, if_false] at hev
        rcases List.mem_cons.mp hev with hev | hev
        · exact Or.inl ⟨f, attempt, hev⟩
        rcases List.mem_cons.mp hev with hev | hev
        · exact Or.inr ⟨attempt, hev⟩
        · exact ih (some e) ev hev

lemma uploadTask_events_class (t : Track) :
    ∀ ev ∈ (uploadTask t).1,
      (∃ k a, ev = Event.putObject k a) ∨ ∃ s, ev = Event.sleep s := by
  unfold uploadTask
  cases t.read with
  | some e => simp
  | none => exact retryLoop_events_class t.file t.put [1, 2, 3, 4, 5] none

lemma uploadTask_exhausted (t : Track) (hread : t.read = none)
    (h1 : (t.put 1).isSome = true) (h2 : (t.put 2).isSome = true)
    (h3 : (t.put 3).isSome = true) (h4 : (t.put 4).isSome = true)
    (h5 : (t.put 5).isSome = true) :
    ∃ e5, t.put 5 = some e5 ∧
      (uploadTask t).2 = some (t.file ++ ": Failed after 5 attempts - " ++ e5) ∧
      (uploadTask t).1 = attemptsTrace t.file 5 := by
  rcases Option.isSome_iff_exists.mp h1 with ⟨e1, he1⟩
  rcases Option.isSome_iff_exists.mp h2 with ⟨e2, he2⟩
  rcases Option.isSome_iff_exists.mp h3 with ⟨e3, he3⟩
  rcases Option.isSome_iff_exists.mp h4 with ⟨e4, he4⟩
  rcases Option.isSome_iff_exists.mp h5 with ⟨e5, he5⟩
  refine ⟨e5, he5, ?_, ?_⟩
  · simp [uploadTask, hread, retryLoop, he1, he2, he3, he4, he5]
  · simp [uploadTask, hread, retryLoop, he1, he2, he3, he4, he5]
    rfl

/-- C2.  A per-track upload task PUTs at most 5 times: its event trace is
exactly `attemptsTrace` for some number of attempts `k ≤ 5` — a PUT per
attempt with sleeps of 1s, 2s, 3s, 4s between consecutive attempts and no
sleep after the final one — and it succeeds exactly when attempt `k`'s PUT
succeeds.  A task failing its first 4 attempts and succeeding on the 5th is a
success and contributes no error to the orchestrator's failure list. -/
theorem c2_upload_retry (t : Track) (hread : t.read = none) :
    (∃ k, 1 ≤ k ∧ k ≤ 5 ∧ (uploadTask t).1 = attemptsTrace t.file k ∧
      ((uploadTask t).2 = none ↔ t.put k = none)) ∧
    ((t.put 1).isSome = true → (t.put 2).isSome = true →
      (t.put 3).isSome = true → (t.put 4).isSome = true → t.put 5 = none →
      (uploadTask t).2 = none ∧ (uploadTask t).1 = attemptsTrace t.file 5) ∧
    (∀ pre post, (uploadTask t).2 = none →
      (uploadsStage (pre ++ t :: post)).2.1 =
        (uploadsStage pre).2.1 ++ (uploadsStage post).2.1) := by
  have hmain : ∃ k, 1 ≤ k ∧ k ≤ 5 ∧ (uploadTask t).1 = attemptsTrace t.file k ∧
      ((uploadTask t).2 = none ↔ t.put k = none) := by
    unfold uploadTask
    rw [hread]
    cases h1 : t.put 1 with
    | none =>
      exact ⟨1, by omega, by omega, by simp [retryLoop, h1]; rfl, by simp [retryLoop, h1]⟩
    | some e1 =>
      cases h2 : t.put 2 with
      | none =>
        exact ⟨2, by omega, by omega, by simp [retryLoop, h1, h2]; rfl,
          by simp [retryLoop, h1, h2]⟩
      | some e2 =>
        cases h3 : t.put 3 with
        | none =>
          exact ⟨3, by omega, by omega, by simp [retryLoop, h1, h2, h3]; rfl,
            by simp [retryLoop, h1, h2, h3]⟩
        | some e3 =>
          cases h4 : t.put 4 with
          | none =>
            exact ⟨4, by omega, by omega, by simp [retryLoop, h1, h2, h3, h4]; rfl,
              by simp [retryLoop, h1, h2, h3, h4]⟩
          | some e4 =>
            cases h5 : t.put 5 with
            | none =>
              exact ⟨5, by omega, by omega, by simp [retryLoop, h1, h2, h3, h4, h5]; rfl,
                by simp [retryLoop, h1, h2, h3, h4, h5]⟩
            | some e5 =>
              exact ⟨5, by omega, by omega, by simp [retryLoop, h1, h2, h3, h4, h5]; rfl,
                by simp [retryLoop, h1, h2, h3, h4, h5]⟩
  refine ⟨hmain, ?_, ?_⟩
  · intro h1 h2 h3 h4 h5
    rcases Option.isSome_iff_exists.mp h1 with ⟨e1, he1⟩
    rcases Option.isSome_iff_exists.mp h2 with ⟨e2, he2⟩
    rcases Option.isSome_iff_exists.mp h3 with ⟨e3, he3⟩
    rcases Option.isSome_iff_exists.mp h4 with ⟨e4, he4⟩
    constructor
    · simp [uploadTask, hread, retryLoop, he1, he2, he3, he4, h5]
    · simp [uploadTask, hread, retryLoop, he1, he2, he3, he4, h5]
      rfl
  · intro pre post hsucc
    rw [uploadsStage_append pre (t :: post)]
    by_cases hex : t.fileExists = true
    · simp [uploadsStage, hex, hsucc]
    · simp only [Bool.not_eq_true] at hex
      simp [uploadsStage, hex]

/-- Witness for `c2_upload_retry`: a concrete track failing attempts 1-4 and
succeeding on the 5th. -/
theorem c2_upload_retry_witness :
    (uploadTask ⟨"one.flac", true, none,
        fun i => if i = 5 then none else some "timeout"⟩).2 = none ∧
    (uploadTask ⟨"one.flac", true, none,
        fun i => if i = 5 then none else some "timeout"⟩).1 =
      attemptsTrace "one.flac" 5 := by
  exact (c2_upload_retry _ rfl).2.1 rfl rfl rfl rfl rfl

/-! ## The `publish` orchestrator (deploy.rs lines 946-1327) -/

/-- Oracle environment of one `publish` invocation: the album data plus the
outcome the outside world returns for every call the orchestrator can make.
`Except.error` is a failed call (non-success Cloudflare envelope or transport
error); for lookups the inner `Option` is the 404 / found distinction. -/
structure PublishEnv where
  artist : String
  album : String
  albumTomlExists : Bool
  configExists : Bool
  accountId : String
  baseDomain : Option String
  subdomain : Option String
  force : Bool
  userConfirms : Bool
  getPagesProject : Except String (Option Unit)
  getR2Bucket : Except String (Option Unit)
  createR2Bucket : Except String Unit
  audioDirExists : Bool
  tracks : List Track
  configureCors : Except String Unit
  verifyR2Bucket : Except String (Option Unit)
  addR2CustomDomain : Except String Unit
  getDnsZoneR2 : Except String (Option String)
  createDnsRecordR2 : Except String Unit
  buildSite : Except String Unit
  createPagesProject : Except String Unit
  uploadDeployment : Except String String
  getDnsZonePages : Except String (Option String)
  createDnsRecordPages : Except String Unit

/-- Lines 1211-1249: compute the asset base URL (`cdn_url`).  With no base
domain the platform default `https://pub-{account_id}.r2.dev` is used.  With
a base domain, `add_r2_custom_domain` is attempted: on failure the model
falls back to the platform default (warning only); on success the DNS zone is
looked up (note the `?` on line 1221: a zone-lookup transport error aborts
`publish`), a CNAME record is attempted when the zone is found (failure is
only warned about), and the custom URL `https://{project}-audio.{base}` is
returned whether or not the record was created. -/
def cdnStep (env : PublishEnv) (projectName : String) :
    List Event × Except String String :=
  match env.baseDomain with
  | none => ([], .ok ("https://pub-" ++ env.accountId ++ ".r2.dev"))
  | some bd =>
    let cdnDomain := projectName ++ "-audio." ++ bd
    match env.addR2CustomDomain with
    | .error e =>
      ([Event.addCustomDomain cdnDomain,
        Event.warn ("Custom domain setup failed: " ++ e)],
       .ok ("https://pub-" ++ env.accountId ++ ".r2.dev"))
    | .ok _ =>
      match env.getDnsZoneR2 with
      | .error e =>
        ([Event.addCustomDomain cdnDomain, Event.getDnsZone bd], .error e)
      | .ok none =>
        ([Event.addCustomDomain cdnDomain, Event.getDnsZone bd],
         .ok ("https://" ++ cdnDomain))
      | .ok (some _zoneId) =>
        match env.createDnsRecordR2 with
        | .ok _ =>
          ([Event.addCustomDomain cdnDomain, Event.getDnsZone bd,
            Event.createDnsRecord cdnDomain (DnsContent.r2Storage env.accountId)],
           .ok ("https://" ++ cdnDomain))
        | .error e =>
          ([Event.addCustomDomain cdnDomain, Event.getDnsZone bd,
            Event.createDnsRecord cdnDomain (DnsContent.r2Storage env.accountId),
            Event.warn ("DNS record creation failed: " ++ e)],
           .ok ("https://" ++ cdnDomain))

/-- Lines 1277-1312: after the site deployment, when both an album subdomain
and a base domain are configured, look up the DNS zone (`?` on line 1285:
zone-lookup error aborts) and attempt the Pages CNAME record (failure only
warned). -/
def pagesDnsStep (env : PublishEnv) (projectName : String) :
    List Event × Option String :=
  match env.subdomain, env.baseDomain with
  | some sd, some bd =>
    match env.getDnsZonePages with
    | .error e => ([Event.getDnsZone bd], some e)
    | .ok none =>
      ([Event.getDnsZone bd,
        Event.warn ("Domain not found on Cloudflare: " ++ bd)], none)
    | .ok (some _zoneId) =>
      match env.createDnsRecordPages with
      | .ok _ =>
        ([Event.getDnsZone bd,
          Event.createDnsRecord (sd ++ "." ++ bd) (DnsContent.pagesDev projectName)],
         none)
      | .error e =>
        ([Event.getDnsZone bd,
          Event.createDnsRecord (sd ++ "." ++ bd) (DnsContent.pagesDev projectName),
          Event.warn ("DNS record creation failed: " ++ e)], none)
  | _, _ => ([], none)

/-- Lines 1270-1327: upload the site bundle (`?`), then the Pages custom
domain DNS step, then report success. -/
def publishDeploy (env : PublishEnv) (projectName cdnUrl : String) :
    List Event × PublishResult :=
  match env.uploadDeployment with
  | .error e => ([Event.uploadDeployment], .fatal e)
  | .ok depUrl =>
    let dns := pagesDnsStep env projectName
    match dns.2 with
    | some e => (Event.uploadDeployment :: dns.1, .fatal e)
    | none => (Event.uploadDeployment :: dns.1, .published cdnUrl depUrl)

/-- Lines 1262-1268: create the Pages project when the initial lookup found
none (`?` on line 1265), then deploy. -/
def publishCreateAndDeploy (env : PublishEnv) (projectName cdnUrl : String)
    (projectExists : Bool) : List Event × PublishResult :=
  if projectExists then publishDeploy env projectName cdnUrl
  else
    match env.createPagesProject with
    | .error e => ([Event.createPagesProject], .fatal e)
    | .ok _ =>
      let d := publishDeploy env projectName cdnUrl
      (Event.createPagesProject :: d.1, d.2)

/-- Lines 1174-1187: best-effort CORS configuration, attempted only when the
bucket had to be created in this run; a failure is only warned about. -/
def corsStep (env : PublishEnv) (bucketExisted : Bool) : List Event :=
  if bucketExisted then []
  else
    match env.configureCors with
    | .ok _ => [Event.configureCors]
    | .error e =>
      [Event.configureCors, Event.warn ("CORS configuration failed: " ++ e)]

/-- Lines 1173-1268: what `publish` does once every upload has succeeded:
best-effort CORS configuration, bucket accessibility verification (fatal on
error or absence, lines 1190-1208), the asset-URL computation, the local
site build (`?`, line 1258), project creation if needed, and the
deployment. -/
def publishAfterUploads (env : PublishEnv) (projectName : String)
    (bucketExisted projectExists : Bool) : List Event × PublishResult :=
  let corsEvs : List Event := corsStep env bucketExisted
  match env.verifyR2Bucket with
  | .ok none =>
    (corsEvs ++ [Event.getR2Bucket], .fatal "R2 bucket not found after creation")
  | .error e =>
    (corsEvs ++ [Event.getR2Bucket],
     .fatal ("Failed to verify R2 bucket accessibility: " ++ e))
  | .ok (some _) =>
    let cdn := cdnStep env projectName
    match cdn.2 with
    | .error e => (corsEvs ++ [Event.getR2Bucket] ++ cdn.1, .fatal e)
    | .ok cdnUrl =>
      match env.buildSite with
      | .error e =>
        (corsEvs ++ [Event.getR2Bucket] ++ cdn.1 ++ [Event.buildSite], .fatal e)
      | .ok _ =>
        let d := publishCreateAndDeploy env projectName cdnUrl projectExists
        (corsEvs ++ [Event.getR2Bucket] ++ cdn.1 ++ [Event.buildSite] ++ d.1, d.2)

/-- Lines 1040-1171: the audio-directory check, the upload fan-out/join, and
the abort-on-failure gate: a non-empty failure list prints every failure and
bails with the aggregate count message before any later stage runs. -/
def publishFromAudio (env : PublishEnv) (projectName : String)
    (bucketExisted projectExists : Bool) : List Event × PublishResult :=
  if ¬ env.audioDirExists then ([], .fatal "Audio directory not found") else
  let up := uploadsStage env.tracks
  if up.2.1 ≠ [] then
    (up.1 ++ up.2.1.map Event.warn,
     .fatal (toString up.2.1.length ++ " upload(s) failed"))
  else
    let after := publishAfterUploads env projectName bucketExisted projectExists
    (up.1 ++ after.1, after.2)

/-- The `publish` command (lines 946-1327): validation, configuration load,
project lookup, confirmation prompt, R2 bucket lookup/creation, then
`publishFromAudio`. -/
def publishModel (env : PublishEnv) : List Event × PublishResult :=
  if ¬ env.albumTomlExists then ([], .fatal "album.toml not found") else
  let projectName := derive_project_name env.artist env.album
  if projectName = "" ∨ projectName = "-" then
    ([], .fatal "Invalid album/artist names - cannot create project name") else
  if ¬ env.configExists then ([], .fatal "No Cloudflare configuration found") else
  match env.getPagesProject with
  | .error e => ([Event.getPagesProject], .fatal e)
  | .ok proj =>
    let projectExists := proj.isSome
    let confirmEvs : List Event := if env.force then [] else [Event.promptConfirm]
    if ¬ env.force ∧ ¬ env.userConfirms then
      (Event.getPagesProject :: confirmEvs, .cancelled)
    else
      match env.getR2Bucket with
      | .error e =>
        (Event.getPagesProject :: confirmEvs ++ [Event.getR2Bucket], .fatal e)
      | .ok (some _) =>
        let t := publishFromAudio env projectName true projectExists
        (Event.getPagesProject :: confirmEvs ++ [Event.getR2Bucket] ++ t.1, t.2)
      | .ok none =>
        match env.createR2Bucket with
        | .error e =>
          (Event.getPagesProject :: confirmEvs
            ++ [Event.getR2Bucket, Event.createR2Bucket], .fatal e)
        | .ok _ =>
          let t := publishFromAudio env projectName false projectExists
          (Event.getPagesProject :: confirmEvs
            ++ [Event.getR2Bucket, Event.createR2Bucket] ++ t.1, t.2)

/-! ## `empty_r2_bucket` and the `teardown` orchestrator
(deploy.rs lines 466-600 and 1404-1530) -/

/-- Oracle environment of one `teardown` invocation. `objects` is the full
key list the bucket listing returns (lines 496-527; the model folds the
pagination and common-prefix walk into one list), `deleteObject` the per-key
outcome of `delete_object` (line 536, `?`: the first failure aborts the
emptying), `multiparts` the keys of incomplete multipart uploads and
`abortUpload` the per-key outcome of `abort_upload` (lines 562-569; failures
are only printed). -/
structure TeardownEnv where
  artist : String
  album : String
  albumTomlExists : Bool
  configExists : Bool
  force : Bool
  typedName : String
  getPagesProject : Except String (Option Unit)
  getR2Bucket : Except String (Option Unit)
  deletePagesProject : Except String Unit
  listObjects : Except String (List String)
  deleteObject : String → Option String
  listMultiparts : Except String (List String)
  abortUpload : String → Option String
  deleteR2Bucket : Except String Unit

/-- Lines 533-540: delete every listed object in order; the `?` propagates
the first failure, leaving later keys unattempted. -/
def deleteObjectsLoop (d : String → Option String) :
    List String → List Event × Option String
  | [] => ([], none)
  | k :: rest =>
    match d k with
    | some e => ([Event.deleteObject k], some ("Failed to delete object: " ++ e))
    | none =>
      let later := deleteObjectsLoop d rest
      (Event.deleteObject k :: later.1, later.2)

/-- Lines 555-571: abort every incomplete multipart upload; failures are
printed and swallowed. -/
def abortUploadsLoop (a : String → Option String) : List String → List Event
  | [] => []
  | k :: rest =>
    match a k with
    | none => Event.abortMultipartUpload k :: abortUploadsLoop a rest
    | some e =>
      Event.abortMultipartUpload k ::
        Event.warn ("Failed to abort upload " ++ k ++ ": " ++ e) ::
        abortUploadsLoop a rest

/-- Model of `CloudflareClient::empty_r2_bucket` (lines 466-580): list all objects
(`?`), delete each (`?`), list incomplete multipart uploads (`?`) and attempt
to abort each (failures only printed).  Returns the events and `none` on
success or the propagated error. -/
def emptyBucketModel (env : TeardownEnv) : List Event × Option String :=
  match env.listObjects with
  | .error e => ([Event.listObjects], some e)
  | .ok keys =>
    let dels := deleteObjectsLoop env.deleteObject keys
    match dels.2 with
    | some e => (Event.listObjects :: dels.1, some e)
    | none =>
      match env.listMultiparts with
      | .error e =>
        (Event.listObjects :: dels.1 ++ [Event.listMultipartUploads], some e)
      | .ok ups =>
        (Event.listObjects :: dels.1 ++ [Event.listMultipartUploads]
          ++ abortUploadsLoop env.abortUpload ups, none)

/-- The bucket half of the teardown deletions (lines 1491-1523). -/
def teardownBucketStep (env : TeardownEnv) (bucketExists : Bool) :
    List Event × TeardownResult :=
  if bucketExists then
    let emp := emptyBucketModel env
    match emp.2 with
    | some e =>
      (emp.1 ++ [Event.warn ("Failed to empty R2 bucket: " ++ e)], .success)
    | none =>
      match env.deleteR2Bucket with
      | .ok _ => (emp.1 ++ [Event.deleteR2Bucket], .success)
      | .error e =>
        (emp.1 ++ [Event.deleteR2Bucket,
          Event.warn ("Failed to delete R2 bucket: " ++ e)], .success)
  else ([], .success)

/-- Lines 1483-1523: delete the Pages project when it exists (`?` on
line 1486: a failure aborts teardown), then the bucket step. -/
def teardownDeletions (env : TeardownEnv) (projExists bucketExists : Bool) :
    List Event × TeardownResult :=
  if projExists then
    match env.deletePagesProject with
    | .error e => ([Event.deletePagesProject], .fatal e)
    | .ok _ =>
      let b := teardownBucketStep env bucketExists
      (Event.deletePagesProject :: b.1, b.2)
  else teardownBucketStep env bucketExists

/-- The `teardown` command (lines 1404-1530): validation, configuration load,
the two existence lookups, the early `Ok` when nothing exists, the
name-confirmation prompt, then the deletions. -/
def teardownModel (env : TeardownEnv) : List Event × TeardownResult :=
  if ¬ env.albumTomlExists then ([], .fatal "album.toml not found") else
  let projectName := derive_project_name env.artist env.album
  if projectName = "" ∨ projectName = "-" then
    ([], .fatal "Invalid album/artist names - cannot derive project name") else
  if ¬ env.configExists then ([], .fatal "No Cloudflare configuration found") else
  match env.getPagesProject with
  | .error e => ([Event.getPagesProject], .fatal e)
  | .ok proj =>
    match env.getR2Bucket with
    | .error e => ([Event.getPagesProject, Event.getR2Bucket], .fatal e)
    | .ok bucket =>
      if ¬ proj.isSome ∧ ¬ bucket.isSome then
        ([Event.getPagesProject, Event.getR2Bucket], .success)
      else
        let confirmEvs : List Event :=
          if env.force then [] else [Event.promptConfirm]
        if ¬ env.force ∧ env.typedName ≠ projectName then
          (Event.getPagesProject :: Event.getR2Bucket :: confirmEvs, .cancelled)
        else
          let d := teardownDeletions env proj.isSome bucket.isSome
          (Event.getPagesProject :: Event.getR2Bucket :: confirmEvs ++ d.1, d.2)

/-! ## Event classification and ordering -/

/-- PUT of a track's audio object. -/
def isPutEv : Event → Bool
  | .putObject _ _ => true
  | _ => false

/-- The site-bundle upload (`upload_deployment`). -/
def isSiteUploadEv : Event → Bool
  | .uploadDeployment => true
  | _ => false

/-- The auxiliary steps named by the specification: CORS configuration,
custom-domain setup (including its DNS zone lookups) and DNS record
creation. -/
def isAuxEv : Event → Bool
  | .configureCors | .addCustomDomain _ | .getDnsZone _ | .createDnsRecord _ _ => true
  | _ => false

/-- The R2-side auxiliary steps: CORS, the R2 custom domain and the R2
CNAME record. -/
def isR2AuxEv : Event → Bool
  | .configureCors => true
  | .addCustomDomain _ => true
  | .createDnsRecord _ (.r2Storage _) => true
  | _ => false

/-- Creation of the Pages custom-subdomain CNAME record. -/
def isPagesDnsEv : Event → Bool
  | .createDnsRecord _ (.pagesDev _) => true
  | _ => false

/-- Any DNS record creation. -/
def isDnsCreateEv : Event → Bool
  | .createDnsRecord _ _ => true
  | _ => false

/-- Remote calls that change state on the platform. -/
def isMutatingEv : Event → Bool
  | .createR2Bucket | .putObject _ _ | .configureCors | .addCustomDomain _
  | .createDnsRecord _ _ | .createPagesProject | .uploadDeployment
  | .deletePagesProject | .deleteObject _ | .abortMultipartUpload _
  | .deleteR2Bucket => true
  | _ => false

/-- Any HTTP request to the remote platform, read-only lookups included. -/
def isHttpEv (e : Event) : Bool :=
  isMutatingEv e ||
    (match e with
     | .getPagesProject | .getR2Bucket | .getDnsZone _
     | .listObjects | .listMultipartUploads => true
     | _ => false)

/-- Deletion, rollback or abort of a remote resource. -/
def isDeleteEv : Event → Bool
  | .deletePagesProject | .deleteObject _ | .abortMultipartUpload _
  | .deleteR2Bucket => true
  | _ => false

/-- Ordering check `eventsBefore p q t`: every `p`-event of `t` occurs strictly before every
`q`-event (at each `q`-event there is no `p`-event at the same or a later
position). -/
def eventsBefore (p q : Event → Bool) : List Event → Bool
  | [] => true
  | e :: rest =>
    (!q e || (!p e && rest.all fun x => !p x)) && eventsBefore p q rest

/-- All events before the first confirmation prompt are non-mutating (holds
vacuously past the first prompt, and over the whole list when no prompt
occurs). -/
def noMutatingBeforePrompt : List Event → Bool
  | [] => true
  | e :: rest =>
    if e = Event.promptConfirm then true
    else !isMutatingEv e && noMutatingBeforePrompt rest

/-- Like `noMutatingBeforePrompt` but for *any* HTTP request: this is the
specification's literal ordering claim, and it fails on the code. -/
def noHttpBeforePrompt : List Event → Bool
  | [] => true
  | e :: rest =>
    if e = Event.promptConfirm then true
    else !isHttpEv e && noHttpBeforePrompt rest

lemma eventsBefore_of_no_p (p q : Event → Bool) (l : List Event)
    (h : ∀ e ∈ l, p e = false) : eventsBefore p q l = true := by
  induction l with
  | nil => rfl
  | cons e rest ih =>
    simp only [eventsBefore, Bool.and_eq_true]
    constructor
    · by_cases hq : q e = true
      · simp only [hq, Bool.not_true, Bool.false_or, Bool.and_eq_true]
        refine ⟨by simp [h e (List.mem_cons_self e rest)], ?_⟩
        rw [List.all_eq_true]
        intro x hx
        simp [h x (List.mem_cons_of_mem e hx)]
      · simp only [Bool.not_eq_true] at hq
        simp [hq]
    · exact ih fun e' he' => h e' (List.mem_cons_of_mem e he')

lemma eventsBefore_of_no_q (p q : Event → Bool) (l : List Event)
    (h : ∀ e ∈ l, q e = false) : eventsBefore p q l = true := by
  induction l with
  | nil => rfl
  | cons e rest ih =>
    simp only [eventsBefore, Bool.and_eq_true]
    refine ⟨by simp [h e (List.mem_cons_self e rest)], ?_⟩
    exact ih fun e' he' => h e' (List.mem_cons_of_mem e he')

lemma eventsBefore_append (p q : Event → Bool) (xs ys : List Event)
    (hq : ∀ e ∈ xs, q e = false) (hy : eventsBefore p q ys = true) :
    eventsBefore p q (xs ++ ys) = true := by
  induction xs with
  | nil => simpa
  | cons e rest ih =>
    simp only [List.cons_append, eventsBefore, Bool.and_eq_true]
    refine ⟨by simp [hq e (List.mem_cons_self e rest)], ?_⟩
    exact ih fun e' he' => hq e' (List.mem_cons_of_mem e he')

/-! ## Stage classification lemmas -/

lemma uploadsStage_class (ts : List Track) :
    ∀ e ∈ (uploadsStage ts).1, isPutEv e = true ∨ ∃ s, e = Event.sleep s := by
  intro e he
  rw [uploadsStage_events] at he
  rcases List.mem_flatMap.mp he with ⟨t, _ht, hm⟩
  by_cases hex : t.fileExists = true
  · rw [if_pos hex] at hm
    rcases uploadTask_events_class t e hm with ⟨k, a, rfl⟩ | ⟨s, rfl⟩
    · left; rfl
    · right; exact ⟨s, rfl⟩
  · simp only [Bool.not_eq_true] at hex
    simp [hex] at hm

lemma corsStep_class (env : PublishEnv) (bex : Bool) :
    ∀ e ∈ corsStep env bex,
      e = Event.configureCors ∨ ∃ m, e = Event.warn m := by
  intro e he
  unfold corsStep at he
  by_cases hb : bex = true
  · simp [hb] at he
  · simp only [Bool.not_eq_true] at hb
    rcases hc : env.configureCors with ⟨ec⟩ | ⟨⟩ <;> rw [hc] at he <;> simp [hb] at he
    · rcases he with rfl | rfl
      · exact Or.inl rfl
      · exact Or.inr ⟨_, rfl⟩
    · exact Or.inl he

lemma cdnStep_class (env : PublishEnv) (pn : String) :
    ∀ e ∈ (cdnStep env pn).1,
      isPutEv e = false ∧ isSiteUploadEv e = false ∧ isPagesDnsEv e = false ∧
      isDeleteEv e = false ∧ e ≠ Event.createPagesProject := by
  intro e he
  unfold cdnStep at he
  rcases hb : env.baseDomain with _ | bd <;> rw [hb] at he
  · simp at he
  · rcases ha : env.addR2CustomDomain with ⟨ea⟩ | ⟨⟩ <;> rw [ha] at he
    · simp at he
      rcases he with rfl | rfl <;>
        simp [isPutEv, isSiteUploadEv, isPagesDnsEv, isDeleteEv]
    · rcases hz : env.getDnsZoneR2 with ⟨ez⟩ | ⟨z⟩ <;> rw [hz] at he
      · simp at he
        rcases he with rfl | rfl <;>
          simp [isPutEv, isSiteUploadEv, isPagesDnsEv, isDeleteEv]
      · rcases z with _ | zid
        · simp at he
          rcases he with rfl | rfl <;>
            simp [isPutEv, isSiteUploadEv, isPagesDnsEv, isDeleteEv]
        · rcases hr : env.createDnsRecordR2 with ⟨er⟩ | ⟨⟩ <;> rw [hr] at he <;>
            simp at he
          · rcases he with rfl | rfl | rfl | rfl <;>
              simp [isPutEv, isSiteUploadEv, isPagesDnsEv, isDeleteEv]
          · rcases he with rfl | rfl | rfl <;>
              simp [isPutEv, isSiteUploadEv, isPagesDnsEv, isDeleteEv]

lemma pagesDnsStep_class (env : PublishEnv) (pn : String) :
    ∀ e ∈ (pagesDnsStep env pn).1,
      isPutEv e = false ∧ isSiteUploadEv e = false ∧ isR2AuxEv e = false ∧
      isDeleteEv e = false ∧ e ≠ Event.createPagesProject := by
  intro e he
  unfold pagesDnsStep at he
  rcases hs : env.subdomain with _ | sd <;> rw [hs] at he
  · simp at he
  · rcases hb : env.baseDomain with _ | bd <;> rw [hb] at he
    · simp at he
    · rcases hz : env.getDnsZonePages with ⟨ez⟩ | ⟨z⟩ <;> rw [hz] at he
      · simp at he
        subst he
        simp [isPutEv, isSiteUploadEv, isR2AuxEv, isDeleteEv]
      · rcases z with _ | zid
        · simp at he
          rcases he with rfl | rfl <;>
            simp [isPutEv, isSiteUploadEv, isR2AuxEv, isDeleteEv]
        · rcases hr : env.createDnsRecordPages with ⟨er⟩ | ⟨⟩ <;> rw [hr] at he <;>
            simp at he
          · rcases he with rfl | rfl | rfl <;>
              simp [isPutEv, isSiteUploadEv, isR2AuxEv, isDeleteEv]
          · rcases he with rfl | rfl <;>
              simp [isPutEv, isSiteUploadEv, isR2AuxEv, isDeleteEv]

lemma publishDeploy_class (env : PublishEnv) (pn u : String) :
    ∀ e ∈ (publishDeploy env pn u).1,
      isPutEv e = false ∧ isR2AuxEv e = false ∧ isDeleteEv e = false ∧
      e ≠ Event.createPagesProject := by
  intro e he
  unfold publishDeploy at he
  rcases hu : env.uploadDeployment with ⟨eu⟩ | ⟨du⟩ <;> rw [hu] at he
  · simp at he
    subst he
    simp [isPutEv, isR2AuxEv, isDeleteEv]
  · dsimp only [] at he
    rcases hd : (pagesDnsStep env pn).2 with _ | ed <;> rw [hd] at he <;>
      dsimp only [] at he <;>
      rcases List.mem_cons.mp he with rfl | he
    · simp [isPutEv, isR2AuxEv, isDeleteEv]
    · have h := pagesDnsStep_class env pn e he
      exact ⟨h.1, h.2.2.1, h.2.2.2.1, h.2.2.2.2⟩
    · simp [isPutEv, isR2AuxEv, isDeleteEv]
    · have h := pagesDnsStep_class env pn e he
      exact ⟨h.1, h.2.2.1, h.2.2.2.1, h.2.2.2.2⟩

lemma publishDeploy_site_before_dns (env : PublishEnv) (pn u : String) :
    eventsBefore isSiteUploadEv isPagesDnsEv (publishDeploy env pn u).1 = true := by
  have hnop : ∀ e ∈ (pagesDnsStep env pn).1, isSiteUploadEv e = false :=
    fun e he => (pagesDnsStep_class env pn e he).2.1
  have hrest := eventsBefore_of_no_p isSiteUploadEv isPagesDnsEv _ hnop
  unfold publishDeploy
  rcases hu : env.uploadDeployment with ⟨eu⟩ | ⟨du⟩
  · rfl
  · dsimp only []
    rcases hd : (pagesDnsStep env pn).2 with _ | ed <;>
      simp [eventsBefore, isPagesDnsEv, hrest]

lemma publishCreateAndDeploy_class (env : PublishEnv) (pn u : String) (pex : Bool) :
    ∀ e ∈ (publishCreateAndDeploy env pn u pex).1,
      isPutEv e = false ∧ isR2AuxEv e = false ∧ isDeleteEv e = false := by
  intro e he
  unfold publishCreateAndDeploy at he
  by_cases hp : pex = true
  · rw [if_pos hp] at he
    have h := publishDeploy_class env pn u e he
    exact ⟨h.1, h.2.1, h.2.2.1⟩
  · simp only [Bool.not_eq_true] at hp
    rw [hp] at he
    simp only [Bool.false_eq_true, if_false] at he
    rcases hc : env.createPagesProject with ⟨ec⟩ | ⟨⟩ <;> rw [hc] at he
    · simp at he
      subst he
      simp [isPutEv, isR2AuxEv, isDeleteEv]
    · dsimp only [] at he
      rcases List.mem_cons.mp he with rfl | he
      · simp [isPutEv, isR2AuxEv, isDeleteEv]
      · have h := publishDeploy_class env pn u e he
        exact ⟨h.1, h.2.1, h.2.2.1⟩

lemma publishCreateAndDeploy_create_mem (env : PublishEnv) (pn u : String)
    (pex : Bool) (hmem : Event.createPagesProject ∈ (publishCreateAndDeploy env pn u pex).1) :
    pex = false := by
  by_cases hp : pex = true
  · exfalso
    unfold publishCreateAndDeploy at hmem
    rw [if_pos hp] at hmem
    exact (publishDeploy_class env pn u _ hmem).2.2.2 rfl
  · simpa using hp

lemma publishCreateAndDeploy_site_before_dns (env : PublishEnv) (pn u : String)
    (pex : Bool) :
    eventsBefore isSiteUploadEv isPagesDnsEv
      (publishCreateAndDeploy env pn u pex).1 = true := by
  unfold publishCreateAndDeploy
  by_cases hp : pex = true
  · rw [if_pos hp]
    exact publishDeploy_site_before_dns env pn u
  · simp only [Bool.not_eq_true] at hp
    rw [hp]
    simp only [Bool.false_eq_true, if_false]
    rcases hc : env.createPagesProject with ⟨ec⟩ | ⟨⟩
    · rfl
    · dsimp only []
      have h := publishDeploy_site_before_dns env pn u
      simp [eventsBefore, isPagesDnsEv, h]

lemma publishAfterUploads_trace (env : PublishEnv) (pn : String) (bex pex : Bool) :
    ∃ mid tail,
      (publishAfterUploads env pn bex pex).1
        = corsStep env bex ++ [Event.getR2Bucket] ++ mid ++ tail ∧
      (∀ e ∈ mid, e ∈ (cdnStep env pn).1 ∨ e = Event.buildSite) ∧
      (tail = [] ∨ ∃ u, tail = (publishCreateAndDeploy env pn u pex).1) := by
  unfold publishAfterUploads
  dsimp only []
  rcases hv : env.verifyR2Bucket with ⟨ev⟩ | ⟨v⟩
  · exact ⟨[], [], by simp, by simp, Or.inl rfl⟩
  · rcases v with _ | u
    · exact ⟨[], [], by simp, by simp, Or.inl rfl⟩
    · dsimp only []
      rcases hc : (cdnStep env pn).2 with ⟨ec⟩ | ⟨cu⟩
      · refine ⟨(cdnStep env pn).1, [], by simp, ?_, Or.inl rfl⟩
        intro e he
        exact Or.inl he
      · rcases hbs : env.buildSite with ⟨eb⟩ | ⟨⟩
        · refine ⟨(cdnStep env pn).1 ++ [Event.buildSite], [], by simp, ?_, Or.inl rfl⟩
          intro e he
          rcases List.mem_append.mp he with he | he
          · exact Or.inl he
          · simp at he
            exact Or.inr he
        · refine ⟨(cdnStep env pn).1 ++ [Event.buildSite],
            (publishCreateAndDeploy env pn cu pex).1, by simp, ?_, Or.inr ⟨cu, rfl⟩⟩
          intro e he
          rcases List.mem_append.mp he with he | he
          · exact Or.inl he
          · simp at he
            exact Or.inr he

lemma publishAfterUploads_class (env : PublishEnv) (pn : String) (bex pex : Bool) :
    ∀ e ∈ (publishAfterUploads env pn bex pex).1,
      isPutEv e = false ∧ isDeleteEv e = false := by
  intro e he
  obtain ⟨mid, tail, htr, hmid, htail⟩ := publishAfterUploads_trace env pn bex pex
  rw [htr] at he
  rcases List.mem_append.mp he with he | he
  · rcases List.mem_append.mp he with he | he
    · rcases List.mem_append.mp he with he | he
      · rcases corsStep_class env bex e he with rfl | ⟨m, rfl⟩ <;>
          simp [isPutEv, isDeleteEv]
      · simp at he
        subst he
        simp [isPutEv, isDeleteEv]
    · rcases hmid e he with he | rfl
      · have h := cdnStep_class env pn e he
        exact ⟨h.1, h.2.2.2.1⟩
      · simp [isPutEv, isDeleteEv]
  · rcases htail with rfl | ⟨u, rfl⟩
    · simp at he
    · have h := publishCreateAndDeploy_class env pn u pex e he
      exact ⟨h.1, h.2.2⟩

lemma publishAfterUploads_no_put (env : PublishEnv) (pn : String) (bex pex : Bool) :
    ∀ e ∈ (publishAfterUploads env pn bex pex).1, isPutEv e = false :=
  fun e he => (publishAfterUploads_class env pn bex pex e he).1

lemma publishAfterUploads_r2aux_before_site (env : PublishEnv) (pn : String)
    (bex pex : Bool) :
    eventsBefore isR2AuxEv isSiteUploadEv
      (publishAfterUploads env pn bex pex).1 = true := by
  obtain ⟨mid, tail, htr, hmid, htail⟩ := publishAfterUploads_trace env pn bex pex
  rw [htr]
  have hnoq : ∀ e ∈ corsStep env bex ++ [Event.getR2Bucket] ++ mid,
      isSiteUploadEv e = false := by
    intro e he
    rcases List.mem_append.mp he with he | he
    · rcases List.mem_append.mp he with he | he
      · rcases corsStep_class env bex e he with rfl | ⟨m, rfl⟩ <;> simp [isSiteUploadEv]
      · simp at he
        subst he
        simp [isSiteUploadEv]
    · rcases hmid e he with he | rfl
      · exact (cdnStep_class env pn e he).2.1
      · simp [isSiteUploadEv]
  apply eventsBefore_append _ _ _ _ hnoq
  rcases htail with rfl | ⟨u, rfl⟩
  · rfl
  · exact eventsBefore_of_no_p _ _ _
      fun e he => (publishCreateAndDeploy_class env pn u pex e he).2.1

lemma publishAfterUploads_site_before_dns (env : PublishEnv) (pn : String)
    (bex pex : Bool) :
    eventsBefore isSiteUploadEv isPagesDnsEv
      (publishAfterUploads env pn bex pex).1 = true := by
  obtain ⟨mid, tail, htr, hmid, htail⟩ := publishAfterUploads_trace env pn bex pex
  rw [htr]
  have hnoq : ∀ e ∈ corsStep env bex ++ [Event.getR2Bucket] ++ mid,
      isPagesDnsEv e = false := by
    intro e he
    rcases List.mem_append.mp he with he | he
    · rcases List.mem_append.mp he with he | he
      · rcases corsStep_class env bex e he with rfl | ⟨m, rfl⟩ <;> simp [isPagesDnsEv]
      · simp at he
        subst he
        simp [isPagesDnsEv]
    · rcases hmid e he with he | rfl
      · exact (cdnStep_class env pn e he).2.2.1
      · simp [isPagesDnsEv]
  apply eventsBefore_append _ _ _ _ hnoq
  rcases htail with rfl | ⟨u, rfl⟩
  · rfl
  · exact publishCreateAndDeploy_site_before_dns env pn u pex

lemma publishAfterUploads_create_mem (env : PublishEnv) (pn : String)
    (bex pex : Bool)
    (hmem : Event.createPagesProject ∈ (publishAfterUploads env pn bex pex).1) :
    pex = false := by
  obtain ⟨mid, tail, htr, hmid, htail⟩ := publishAfterUploads_trace env pn bex pex
  rw [htr] at hmem
  rcases List.mem_append.mp hmem with he | he
  · exfalso
    rcases List.mem_append.mp he with he | he
    · rcases List.mem_append.mp he with he | he
      · rcases corsStep_class env bex _ he with h | ⟨m, h⟩ <;> simp at h
      · simp at he
    · rcases hmid _ he with he | he
      · exact (cdnStep_class env pn _ he).2.2.2.2 rfl
      · simp at he
  · rcases htail with rfl | ⟨u, rfl⟩
    · simp at he
    · exact publishCreateAndDeploy_create_mem env pn u pex he

/-! ## Trace and result characterization of `publishFromAudio` and
`publishModel` -/

lemma put_not_delete (e : Event) (h : isPutEv e = true) : isDeleteEv e = false := by
  rcases e <;> simp_all [isPutEv, isDeleteEv]

lemma publishFromAudio_class (env : PublishEnv) (pn : String) (bex pex : Bool) :
    ∀ e ∈ (publishFromAudio env pn bex pex).1,
      isDeleteEv e = false := by
  intro e he
  unfold publishFromAudio at he
  by_cases ha : env.audioDirExists = true
  · rw [if_neg (by simp [ha])] at he
    dsimp only [] at he
    by_cases hf : (uploadsStage env.tracks).2.1 = []
    · rw [if_neg (by simp [hf])] at he
      dsimp only [] at he
      rcases List.mem_append.mp he with he | he
      · rcases uploadsStage_class env.tracks e he with h | ⟨s, rfl⟩
        · exact put_not_delete e h
        · simp [isDeleteEv]
      · exact (publishAfterUploads_class env pn bex pex e he).2
    · rw [if_pos (by simpa using hf)] at he
      dsimp only [] at he
      rcases List.mem_append.mp he with he | he
      · rcases uploadsStage_class env.tracks e he with h | ⟨s, rfl⟩
        · exact put_not_delete e h
        · simp [isDeleteEv]
      · rcases List.mem_map.mp he with ⟨m, _, rfl⟩
        simp [isDeleteEv]
  · simp only [Bool.not_eq_true] at ha
    rw [if_pos (by simp [ha])] at he
    simp at he

lemma ev_putsleep_class (e : Event)
    (h : isPutEv e = true ∨ ∃ s, e = Event.sleep s) :
    isAuxEv e = false ∧ isSiteUploadEv e = false ∧ isPagesDnsEv e = false ∧
      e ≠ Event.createPagesProject := by
  rcases h with h | ⟨s, rfl⟩
  · rcases e <;> simp_all [isPutEv, isAuxEv, isSiteUploadEv, isPagesDnsEv]
  · simp [isAuxEv, isSiteUploadEv, isPagesDnsEv]

lemma aux_is_r2_or_pages_or_zone (e : Event) (h : isR2AuxEv e = false)
    (h2 : isPagesDnsEv e = false) (h3 : isAuxEv e = true) :
    ∃ d, e = Event.getDnsZone d := by
  rcases e <;> simp_all [isR2AuxEv, isPagesDnsEv, isAuxEv]
  · rename_i name content
    rcases content <;> simp_all

lemma publishFromAudio_put_before_aux (env : PublishEnv) (pn : String)
    (bex pex : Bool) :
    eventsBefore isPutEv isAuxEv (publishFromAudio env pn bex pex).1 = true := by
  unfold publishFromAudio
  by_cases ha : env.audioDirExists = true
  · rw [if_neg (by simp [ha])]
    dsimp only []
    by_cases hf : (uploadsStage env.tracks).2.1 = []
    · rw [if_neg (by simp [hf])]
      dsimp only []
      apply eventsBefore_append
      · exact fun e he => (ev_putsleep_class e (uploadsStage_class env.tracks e he)).1
      · exact eventsBefore_of_no_p _ _ _ (publishAfterUploads_no_put env pn bex pex)
    · rw [if_pos (by simpa using hf)]
      dsimp only []
      apply eventsBefore_of_no_q
      intro e he
      rcases List.mem_append.mp he with he | he
      · exact (ev_putsleep_class e (uploadsStage_class env.tracks e he)).1
      · rcases List.mem_map.mp he with ⟨m, _, rfl⟩
        simp [isAuxEv]
  · rw [if_pos (by simp [ha])]
    rfl

lemma publishFromAudio_r2aux_before_site (env : PublishEnv) (pn : String)
    (bex pex : Bool) :
    eventsBefore isR2AuxEv isSiteUploadEv
      (publishFromAudio env pn bex pex).1 = true := by
  unfold publishFromAudio
  by_cases ha : env.audioDirExists = true
  · rw [if_neg (by simp [ha])]
    dsimp only []
    by_cases hf : (uploadsStage env.tracks).2.1 = []
    · rw [if_neg (by simp [hf])]
      dsimp only []
      apply eventsBefore_append
      · exact fun e he => (ev_putsleep_class e (uploadsStage_class env.tracks e he)).2.1
      · exact publishAfterUploads_r2aux_before_site env pn bex pex
    · rw [if_pos (by simpa using hf)]
      dsimp only []
      apply eventsBefore_of_no_q
      intro e he
      rcases List.mem_append.mp he with he | he
      · exact (ev_putsleep_class e (uploadsStage_class env.tracks e he)).2.1
      · rcases List.mem_map.mp he with ⟨m, _, rfl⟩
        simp [isSiteUploadEv]
  · rw [if_pos (by simp [ha])]
    rfl

lemma publishFromAudio_site_before_dns (env : PublishEnv) (pn : String)
    (bex pex : Bool) :
    eventsBefore isSiteUploadEv isPagesDnsEv
      (publishFromAudio env pn bex pex).1 = true := by
  unfold publishFromAudio
  by_cases ha : env.audioDirExists = true
  · rw [if_neg (by simp [ha])]
    dsimp only []
    by_cases hf : (uploadsStage env.tracks).2.1 = []
    · rw [if_neg (by simp [hf])]
      dsimp only []
      apply eventsBefore_append
      · exact fun e he => (ev_putsleep_class e (uploadsStage_class env.tracks e he)).2.2.1
      · exact publishAfterUploads_site_before_dns env pn bex pex
    · rw [if_pos (by simpa using hf)]
      dsimp only []
      apply eventsBefore_of_no_q
      intro e he
      rcases List.mem_append.mp he with he | he
      · exact (ev_putsleep_class e (uploadsStage_class env.tracks e he)).2.2.1
      · rcases List.mem_map.mp he with ⟨m, _, rfl⟩
        simp [isPagesDnsEv]
  · rw [if_pos (by simp [ha])]
    rfl

lemma publishFromAudio_create_mem (env : PublishEnv) (pn : String)
    (bex pex : Bool)
    (hmem : Event.createPagesProject ∈ (publishFromAudio env pn bex pex).1) :
    pex = false := by
  unfold publishFromAudio at hmem
  by_cases ha : env.audioDirExists = true
  · rw [if_neg (by simp [ha])] at hmem
    dsimp only [] at hmem
    by_cases hf : (uploadsStage env.tracks).2.1 = []
    · rw [if_neg (by simp [hf])] at hmem
      dsimp only [] at hmem
      rcases List.mem_append.mp hmem with he | he
      · exact absurd rfl
          (ev_putsleep_class _ (uploadsStage_class env.tracks _ he)).2.2.2
      · exact publishAfterUploads_create_mem env pn bex pex he
    · rw [if_pos (by simpa using hf)] at hmem
      dsimp only [] at hmem
      rcases List.mem_append.mp hmem with he | he
      · exact absurd rfl
          (ev_putsleep_class _ (uploadsStage_class env.tracks _ he)).2.2.2
      · exfalso
        rcases List.mem_map.mp he with ⟨m, _, hm⟩
        simp at hm
  · rw [if_pos (by simp [ha])] at hmem
    simp at hmem

lemma publishModel_trace (env : PublishEnv) :
    ∃ pre t,
      (publishModel env).1 = pre ++ t ∧
      (∀ e ∈ pre, e = Event.getPagesProject ∨ e = Event.promptConfirm ∨
        e = Event.getR2Bucket ∨ e = Event.createR2Bucket) ∧
      (t = [] ∨ ∃ bex proj, env.getPagesProject = .ok proj ∧
        t = (publishFromAudio env (derive_project_name env.artist env.album)
              bex proj.isSome).1) := by
  unfold publishModel
  by_cases h1 : env.albumTomlExists = true
  · rw [if_neg (by simp [h1])]
    dsimp only []
    by_cases h2 : derive_project_name env.artist env.album = "" ∨
        derive_project_name env.artist env.album = "-"
    · rw [if_pos h2]
      exact ⟨[], [], by simp, by simp, Or.inl rfl⟩
    · rw [if_neg h2]
      by_cases h3 : env.configExists = true
      · rw [if_neg (by simp [h3])]
        rcases hp : env.getPagesProject with ⟨ep⟩ | ⟨proj⟩ <;> try dsimp only []
        · exact ⟨[Event.getPagesProject], [], by simp, by simp, Or.inl rfl⟩
        · have hconf : ∀ e ∈ (if env.force then ([] : List Event)
              else [Event.promptConfirm]),
              e = Event.getPagesProject ∨ e = Event.promptConfirm ∨
              e = Event.getR2Bucket ∨ e = Event.createR2Bucket := by
            intro e he
            by_cases hfc : env.force = true <;> simp [hfc] at he
            simp [he]
          by_cases h4 : ¬ (env.force = true) ∧ ¬ (env.userConfirms = true)
          · rw [if_pos h4]
            refine ⟨Event.getPagesProject ::
              (if env.force then [] else [Event.promptConfirm]), [],
              by simp, ?_, Or.inl rfl⟩
            intro e he
            rcases List.mem_cons.mp he with rfl | he
            · exact Or.inl rfl
            · exact hconf e he
          · rw [if_neg h4]
            rcases hb : env.getR2Bucket with ⟨eb⟩ | ⟨bucket⟩ <;> try dsimp only []
            · refine ⟨Event.getPagesProject ::
                (if env.force then [] else [Event.promptConfirm])
                ++ [Event.getR2Bucket], [], by simp, ?_, Or.inl rfl⟩
              intro e he
              rcases List.mem_cons.mp he with rfl | he
              · exact Or.inl rfl
              rcases List.mem_append.mp he with he | he
              · exact hconf e he
              · simp at he
                simp [he]
            · rcases bucket with _ | bu
              · rcases hc : env.createR2Bucket with ⟨ec⟩ | ⟨⟩ <;> try dsimp only []
                · refine ⟨Event.getPagesProject ::
                    (if env.force then [] else [Event.promptConfirm])
                    ++ [Event.getR2Bucket, Event.createR2Bucket], [],
                    by simp, ?_, Or.inl rfl⟩
                  intro e he
                  rcases List.mem_cons.mp he with rfl | he
                  · exact Or.inl rfl
                  rcases List.mem_append.mp he with he | he
                  · exact hconf e he
                  · simp at he
                    rcases he with rfl | rfl <;> simp
                · refine ⟨Event.getPagesProject ::
                    (if env.force then [] else [Event.promptConfirm])
                    ++ [Event.getR2Bucket, Event.createR2Bucket],
                    (publishFromAudio env
                      (derive_project_name env.artist env.album) false
                      proj.isSome).1,
                    by simp, ?_, Or.inr ⟨false, proj, rfl, rfl⟩⟩
                  intro e he
                  rcases List.mem_cons.mp he with rfl | he
                  · exact Or.inl rfl
                  rcases List.mem_append.mp he with he | he
                  · exact hconf e he
                  · simp at he
                    rcases he with rfl | rfl <;> simp
              · refine ⟨Event.getPagesProject ::
                  (if env.force then [] else [Event.promptConfirm])
                  ++ [Event.getR2Bucket],
                  (publishFromAudio env
                    (derive_project_name env.artist env.album) true
                    proj.isSome).1,
                  by simp, ?_, Or.inr ⟨true, proj, rfl, rfl⟩⟩
                intro e he
                rcases List.mem_cons.mp he with rfl | he
                · exact Or.inl rfl
                rcases List.mem_append.mp he with he | he
                · exact hconf e he
                · simp at he
                  simp [he]
      · simp only [Bool.not_eq_true] at h3
        rw [if_pos (by simp [h3])]
        exact ⟨[], [], by simp, by simp, Or.inl rfl⟩
  · simp only [Bool.not_eq_true] at h1
    rw [if_pos (by simp [h1])]
    exact ⟨[], [], by simp, by simp, Or.inl rfl⟩

lemma publishDeploy_published (env : PublishEnv) (pn cu u d : String)
    (h : (publishDeploy env pn cu).2 = .published u d) : u = cu := by
  unfold publishDeploy at h
  rcases hu : env.uploadDeployment with ⟨eu⟩ | ⟨du⟩ <;> rw [hu] at h <;>
    try dsimp only [] at h
  · simp at h
  · rcases hd : (pagesDnsStep env pn).2 with _ | ed <;> rw [hd] at h <;>
      try dsimp only [] at h
    · exact (PublishResult.published.injEq _ _ _ _ ▸ h).1.symm
    · simp at h

lemma publishCreateAndDeploy_published (env : PublishEnv) (pn cu u d : String)
    (pex : Bool)
    (h : (publishCreateAndDeploy env pn cu pex).2 = .published u d) : u = cu := by
  unfold publishCreateAndDeploy at h
  by_cases hp : pex = true
  · rw [if_pos hp] at h
    exact publishDeploy_published env pn cu u d h
  · simp only [Bool.not_eq_true] at hp
    rw [hp] at h
    simp only [Bool.false_eq_true, if_false] at h
    rcases hc : env.createPagesProject with ⟨ec⟩ | ⟨⟩ <;> rw [hc] at h <;>
      try dsimp only [] at h
    · simp at h
    · exact publishDeploy_published env pn cu u d h

lemma publishAfterUploads_published (env : PublishEnv) (pn : String)
    (bex pex : Bool) (u d : String)
    (h : (publishAfterUploads env pn bex pex).2 = .published u d) :
    (cdnStep env pn).2 = .ok u := by
  unfold publishAfterUploads at h
  dsimp only [] at h
  rcases hv : env.verifyR2Bucket with ⟨ev⟩ | ⟨v⟩ <;> rw [hv] at h <;>
    try dsimp only [] at h
  · simp at h
  · rcases v with _ | un
    · simp at h
    · try dsimp only [] at h
      rcases hc : (cdnStep env pn).2 with ⟨ec⟩ | ⟨cu⟩ <;> rw [hc] at h <;>
        try dsimp only [] at h
      · simp at h
      · rcases hb : env.buildSite with ⟨eb⟩ | ⟨⟩ <;> rw [hb] at h <;>
          try dsimp only [] at h
        · simp at h
        · rw [publishCreateAndDeploy_published env pn cu u d pex h]

lemma publishFromAudio_published (env : PublishEnv) (pn : String)
    (bex pex : Bool) (u d : String)
    (h : (publishFromAudio env pn bex pex).2 = .published u d) :
    (cdnStep env pn).2 = .ok u := by
  unfold publishFromAudio at h
  by_cases ha : env.audioDirExists = true
  · rw [if_neg (by simp [ha])] at h
    dsimp only [] at h
    by_cases hf : (uploadsStage env.tracks).2.1 = []
    · rw [if_neg (by simp [hf])] at h
      dsimp only [] at h
      exact publishAfterUploads_published env pn bex pex u d h
    · rw [if_pos (by simpa using hf)] at h
      simp at h
  · simp only [Bool.not_eq_true] at ha
    rw [if_pos (by simp [ha])] at h
    simp at h

lemma publishModel_published (env : PublishEnv) (u d : String)
    (h : (publishModel env).2 = .published u d) :
    (cdnStep env (derive_project_name env.artist env.album)).2 = .ok u := by
  unfold publishModel at h
  by_cases h1 : env.albumTomlExists = true
  · rw [if_neg (by simp [h1])] at h
    dsimp only [] at h
    by_cases h2 : derive_project_name env.artist env.album = "" ∨
        derive_project_name env.artist env.album = "-"
    · rw [if_pos h2] at h
      simp at h
    · rw [if_neg h2] at h
      by_cases h3 : env.configExists = true
      · rw [if_neg (by simp [h3])] at h
        rcases hp : env.getPagesProject with ⟨ep⟩ | ⟨proj⟩ <;> rw [hp] at h <;>
          try dsimp only [] at h
        · simp at h
        · by_cases h4 : ¬ (env.force = true) ∧ ¬ (env.userConfirms = true)
          · rw [if_pos h4] at h
            simp at h
          · rw [if_neg h4] at h
            rcases hb : env.getR2Bucket with ⟨eb⟩ | ⟨bucket⟩ <;> rw [hb] at h <;>
              try dsimp only [] at h
            · simp at h
            · rcases bucket with _ | bu
              · rcases hc : env.createR2Bucket with ⟨ec⟩ | ⟨⟩ <;> rw [hc] at h <;>
                  try dsimp only [] at h
                · simp at h
                · exact publishFromAudio_published env _ false proj.isSome u d h
              · exact publishFromAudio_published env _ true proj.isSome u d h
      · simp only [Bool.not_eq_true] at h3
        rw [if_pos (by simp [h3])] at h
        simp at h
  · simp only [Bool.not_eq_true] at h1
    rw [if_pos (by simp [h1])] at h
    simp at h

/-- C5 (amended).  In every `publish` run: every auxiliary step (CORS,
custom-domain setup, DNS zone lookups and DNS record creation) executes
strictly after every track-upload PUT; the R2-side auxiliary steps (CORS, R2
custom domain, R2 CNAME record) execute strictly before the site-bundle
upload; but the Pages custom-subdomain CNAME record is created strictly
*after* the site-bundle upload — the specification's "all DNS record
creation … strictly before site-bundle upload" fails there (see the
counterexample). -/
theorem c5_auxiliary_ordering (env : PublishEnv) :
    eventsBefore isPutEv isAuxEv (publishModel env).1 = true ∧
    eventsBefore isR2AuxEv isSiteUploadEv (publishModel env).1 = true ∧
    eventsBefore isSiteUploadEv isPagesDnsEv (publishModel env).1 = true := by
  obtain ⟨pre, t, htr, hpre, ht⟩ := publishModel_trace env
  have hpre1 : ∀ e ∈ pre, isAuxEv e = false := by
    intro e he
    rcases hpre e he with rfl | rfl | rfl | rfl <;> simp [isAuxEv]
  have hpre2 : ∀ e ∈ pre, isSiteUploadEv e = false := by
    intro e he
    rcases hpre e he with rfl | rfl | rfl | rfl <;> simp [isSiteUploadEv]
  have hpre3 : ∀ e ∈ pre, isPagesDnsEv e = false := by
    intro e he
    rcases hpre e he with rfl | rfl | rfl | rfl <;> simp [isPagesDnsEv]
  rw [htr]
  refine ⟨?_, ?_, ?_⟩
  · apply eventsBefore_append _ _ _ _ hpre1
    rcases ht with rfl | ⟨bex, proj, _, rfl⟩
    · rfl
    · exact publishFromAudio_put_before_aux env _ bex proj.isSome
  · apply eventsBefore_append _ _ _ _ hpre2
    rcases ht with rfl | ⟨bex, proj, _, rfl⟩
    · rfl
    · exact publishFromAudio_r2aux_before_site env _ bex proj.isSome
  · apply eventsBefore_append _ _ _ _ hpre3
    rcases ht with rfl | ⟨bex, proj, _, rfl⟩
    · rfl
    · exact publishFromAudio_site_before_dns env _ bex proj.isSome

/-- A fully successful `publish` environment with both an album subdomain and
a base domain configured. -/
def c5CounterEnv : PublishEnv where
  artist := "Artist"
  album := "Album"
  albumTomlExists := true
  configExists := true
  accountId := "acc"
  baseDomain := some "example.com"
  subdomain := some "album"
  force := true
  userConfirms := true
  getPagesProject := .ok (some ())
  getR2Bucket := .ok (some ())
  createR2Bucket := .ok ()
  audioDirExists := true
  tracks := []
  configureCors := .ok ()
  verifyR2Bucket := .ok (some ())
  addR2CustomDomain := .ok ()
  getDnsZoneR2 := .ok (some "z1")
  createDnsRecordR2 := .ok ()
  buildSite := .ok ()
  createPagesProject := .ok ()
  uploadDeployment := .ok "https://album.pages.dev"
  getDnsZonePages := .ok (some "z1")
  createDnsRecordPages := .ok ()

/-- C5 counterexample.  In a fully successful `publish` with a subdomain
and base domain configured, a DNS record creation (the Pages custom-domain
CNAME) occurs *after* the site-bundle upload, refuting "all DNS record
creation … strictly before the site-bundle upload". -/
theorem c5_counterexample :
    eventsBefore isDnsCreateEv isSiteUploadEv (publishModel c5CounterEnv).1 = false ∧
    (publishModel c5CounterEnv).2 =
      .published "https://artist-album-audio.example.com"
        "https://album.pages.dev" := by decide

/-- C9.  `publish` issues a `create_pages_project` call only when the
initial `get_pages_project` lookup returned not-found, and never when the
lookup found the project. -/
theorem c9_idempotent_project_creation (env : PublishEnv) :
    (Event.createPagesProject ∈ (publishModel env).1 →
      env.getPagesProject = .ok none) ∧
    (env.getPagesProject = .ok (some ()) →
      Event.createPagesProject ∉ (publishModel env).1) := by
  obtain ⟨pre, t, htr, hpre, ht⟩ := publishModel_trace env
  constructor
  · intro hmem
    rw [htr] at hmem
    rcases List.mem_append.mp hmem with he | he
    · rcases hpre _ he with h | h | h | h <;> simp at h
    · rcases ht with rfl | ⟨bex, proj, hp, rfl⟩
      · simp at he
      · have hfalse := publishFromAudio_create_mem env _ bex proj.isSome he
        rcases proj with _ | pu
        · exact hp
        · simp at hfalse
  · intro hsome hmem
    rw [htr] at hmem
    rcases List.mem_append.mp hmem with he | he
    · rcases hpre _ he with h | h | h | h <;> simp at h
    · rcases ht with rfl | ⟨bex, proj, hp, rfl⟩
      · simp at he
      · have hfalse := publishFromAudio_create_mem env _ bex proj.isSome he
        have hps : proj = some () := by
          have h2 := hp.symm.trans hsome
          simpa using h2
        rw [hps] at hfalse
        simp at hfalse

/-- A `publish` environment whose project lookup returns not-found and which
runs to success, so the creation call is issued. -/
def c9WitnessEnv : PublishEnv where
  artist := "Artist"
  album := "Album"
  albumTomlExists := true
  configExists := true
  accountId := "acc"
  baseDomain := none
  subdomain := none
  force := true
  userConfirms := true
  getPagesProject := .ok none
  getR2Bucket := .ok (some ())
  createR2Bucket := .ok ()
  audioDirExists := true
  tracks := []
  configureCors := .ok ()
  verifyR2Bucket := .ok (some ())
  addR2CustomDomain := .ok ()
  getDnsZoneR2 := .ok none
  createDnsRecordR2 := .ok ()
  buildSite := .ok ()
  createPagesProject := .ok ()
  uploadDeployment := .ok "https://artist-album.pages.dev"
  getDnsZonePages := .ok none
  createDnsRecordPages := .ok ()

/-- Witness for `c9_idempotent_project_creation`: an environment whose trace
does contain the creation call. -/
theorem c9_idempotent_project_creation_witness :
    c9WitnessEnv.getPagesProject = Except.ok none :=
  (c9_idempotent_project_creation c9WitnessEnv).1 (by decide)

lemma publish_noMutatingBeforePrompt (env : PublishEnv) (hf : env.force = false) :
    noMutatingBeforePrompt (publishModel env).1 = true := by
  unfold publishModel
  by_cases h1 : env.albumTomlExists = true
  · rw [if_neg (by simp [h1])]
    dsimp only []
    by_cases h2 : derive_project_name env.artist env.album = "" ∨
        derive_project_name env.artist env.album = "-"
    · rw [if_pos h2]
      rfl
    · rw [if_neg h2]
      by_cases h3 : env.configExists = true
      · rw [if_neg (by simp [h3])]
        rcases hp : env.getPagesProject with ⟨ep⟩ | ⟨proj⟩ <;> try dsimp only []
        · rfl
        · by_cases h4 : ¬ (env.force = true) ∧ ¬ (env.userConfirms = true)
          · rw [if_pos h4]
            simp [noMutatingBeforePrompt, isMutatingEv, hf]
          · rw [if_neg h4]
            rcases hb : env.getR2Bucket with ⟨eb⟩ | ⟨bucket⟩ <;> try dsimp only []
            · simp [noMutatingBeforePrompt, isMutatingEv, hf]
            · rcases bucket with _ | bu
              · rcases hc : env.createR2Bucket with ⟨ec⟩ | ⟨⟩ <;>
                  simp [noMutatingBeforePrompt, isMutatingEv, hf]
              · simp [noMutatingBeforePrompt, isMutatingEv, hf]
      · simp only [Bool.not_eq_true] at h3
        rw [if_pos (by simp [h3])]
        rfl
  · simp only [Bool.not_eq_true] at h1
    rw [if_pos (by simp [h1])]
    rfl

lemma teardown_noMutatingBeforePrompt (env : TeardownEnv) (hf : env.force = false) :
    noMutatingBeforePrompt (teardownModel env).1 = true := by
  unfold teardownModel
  by_cases h1 : env.albumTomlExists = true
  · rw [if_neg (by simp [h1])]
    dsimp only []
    by_cases h2 : derive_project_name env.artist env.album = "" ∨
        derive_project_name env.artist env.album = "-"
    · rw [if_pos h2]
      rfl
    · rw [if_neg h2]
      by_cases h3 : env.configExists = true
      · rw [if_neg (by simp [h3])]
        rcases hp : env.getPagesProject with ⟨ep⟩ | ⟨proj⟩ <;> try dsimp only []
        · rfl
        · rcases hb : env.getR2Bucket with ⟨eb⟩ | ⟨bucket⟩ <;> try dsimp only []
          · rfl
          · by_cases h5 : ¬ (proj.isSome = true) ∧ ¬ (bucket.isSome = true)
            · rw [if_pos h5]
              rfl
            · rw [if_neg h5]
              by_cases h6 : ¬ (env.force = true) ∧ env.typedName ≠
                  derive_project_name env.artist env.album
              · rw [if_pos h6]
                simp [noMutatingBeforePrompt, isMutatingEv, hf]
              · rw [if_neg h6]
                simp [noMutatingBeforePrompt, isMutatingEv, hf]
      · simp only [Bool.not_eq_true] at h3
        rw [if_pos (by simp [h3])]
        rfl
  · simp only [Bool.not_eq_true] at h1
    rw [if_pos (by simp [h1])]
    rfl

/-- C6 (amended).  When the force flag is off, the confirmation prompt of
`publish` and of `teardown` precedes every *state-changing* remote call: all
events before the first prompt are non-mutating.  (The specification's
stronger claim — no HTTP request at all before confirmation — fails: the
read-only existence lookups run before the prompt; see the
counterexample.) -/
theorem c6_prompt_before_mutation (p : PublishEnv) (t : TeardownEnv)
    (hp : p.force = false) (ht : t.force = false) :
    noMutatingBeforePrompt (publishModel p).1 = true ∧
    noMutatingBeforePrompt (teardownModel t).1 = true :=
  ⟨publish_noMutatingBeforePrompt p hp, teardown_noMutatingBeforePrompt t ht⟩

/-- A `publish` environment with the force flag off: the confirmation prompt
is shown after the read-only project lookup. -/
def c6CounterEnv : PublishEnv where
  artist := "Artist"
  album := "Album"
  albumTomlExists := true
  configExists := true
  accountId := "acc"
  baseDomain := none
  subdomain := none
  force := false
  userConfirms := true
  getPagesProject := .ok (some ())
  getR2Bucket := .ok (some ())
  createR2Bucket := .ok ()
  audioDirExists := true
  tracks := []
  configureCors := .ok ()
  verifyR2Bucket := .ok (some ())
  addR2CustomDomain := .ok ()
  getDnsZoneR2 := .ok none
  createDnsRecordR2 := .ok ()
  buildSite := .ok ()
  createPagesProject := .ok ()
  uploadDeployment := .ok "https://artist-album.pages.dev"
  getDnsZonePages := .ok none
  createDnsRecordPages := .ok ()

/-- A teardown environment with the force flag off. -/
def teardownForceOffEnv : TeardownEnv where
  artist := "Artist"
  album := "Album"
  albumTomlExists := true
  configExists := true
  force := false
  typedName := "artist-album"
  getPagesProject := .ok (some ())
  getR2Bucket := .ok (some ())
  deletePagesProject := .ok ()
  listObjects := .ok []
  deleteObject := fun _ => none
  listMultiparts := .ok []
  abortUpload := fun _ => none
  deleteR2Bucket := .ok ()

/-- Witness for `c6_prompt_before_mutation` at concrete environments. -/
theorem c6_prompt_before_mutation_witness :
    noMutatingBeforePrompt (publishModel c6CounterEnv).1 = true ∧
    noMutatingBeforePrompt (teardownModel teardownForceOffEnv).1 = true :=
  c6_prompt_before_mutation c6CounterEnv teardownForceOffEnv rfl rfl

/-- C6 counterexample.  With the force flag off, `publish` issues an HTTP
request (the `get_pages_project` existence lookup) *before* the confirmation
prompt, refuting "no HTTP request to the remote platform is issued before the
user has confirmed". -/
theorem c6_counterexample :
    noHttpBeforePrompt (publishModel c6CounterEnv).1 = false ∧
    Event.promptConfirm ∈ (publishModel c6CounterEnv).1 := by decide

/-- C4 (amended).  The asset base URL of the generated site is exactly
`cdnStep`'s output, and `cdnStep` chooses the custom CDN subdomain
`https://{project}-audio.{base}` precisely when a base domain is configured
*and the custom-domain setup succeeds*: the custom-domain setup is
best-effort (its failure only falls back to the platform default), the DNS
record creation is best-effort but its failure does *not* cause a fallback
(the custom URL is kept; this corrects the claim), and an error in the DNS
zone lookup aborts the deployment instead of falling back (also a
correction). -/
theorem c4_asset_base_url (env : PublishEnv) :
    (∀ u d, (publishModel env).2 = .published u d →
      (cdnStep env (derive_project_name env.artist env.album)).2 = .ok u) ∧
    (∀ pn, env.baseDomain = none →
      (cdnStep env pn).2 = .ok ("https://pub-" ++ env.accountId ++ ".r2.dev")) ∧
    (∀ pn bd e, env.baseDomain = some bd → env.addR2CustomDomain = .error e →
      (cdnStep env pn).2 = .ok ("https://pub-" ++ env.accountId ++ ".r2.dev")) ∧
    (∀ pn bd z, env.baseDomain = some bd → env.addR2CustomDomain = .ok () →
      env.getDnsZoneR2 = .ok z →
      (cdnStep env pn).2 = .ok ("https://" ++ (pn ++ "-audio." ++ bd))) ∧
    (∀ pn bd e, env.baseDomain = some bd → env.addR2CustomDomain = .ok () →
      env.getDnsZoneR2 = .error e → (cdnStep env pn).2 = .error e) := by
  refine ⟨fun u d h => publishModel_published env u d h, ?_, ?_, ?_, ?_⟩
  · intro pn hb
    unfold cdnStep
    rw [hb]
  · intro pn bd e hb ha
    unfold cdnStep
    rw [hb]
    dsimp only []
    rw [ha]
  · intro pn bd z hb ha hz
    unfold cdnStep
    rw [hb]
    dsimp only []
    rw [ha, hz]
    rcases z with _ | zid
    · rfl
    · dsimp only []
      rcases hr : env.createDnsRecordR2 with ⟨er⟩ | ⟨⟩ <;> rfl
  · intro pn bd e hb ha hz
    unfold cdnStep
    rw [hb]
    dsimp only []
    rw [ha, hz]

/-- A `publish` environment in which the R2 CNAME record creation fails but
everything else succeeds (no album subdomain configured). -/
def c4CounterEnv : PublishEnv where
  artist := "Artist"
  album := "Album"
  albumTomlExists := true
  configExists := true
  accountId := "acc"
  baseDomain := some "example.com"
  subdomain := none
  force := true
  userConfirms := true
  getPagesProject := .ok (some ())
  getR2Bucket := .ok (some ())
  createR2Bucket := .ok ()
  audioDirExists := true
  tracks := []
  configureCors := .ok ()
  verifyR2Bucket := .ok (some ())
  addR2CustomDomain := .ok ()
  getDnsZoneR2 := .ok (some "z1")
  createDnsRecordR2 := .error "boom"
  buildSite := .ok ()
  createPagesProject := .ok ()
  uploadDeployment := .ok "https://album.pages.dev"
  getDnsZonePages := .ok none
  createDnsRecordPages := .ok ()

/-- C4 counterexample.  A deployment in which the DNS record creation
failed still publishes with the custom CDN subdomain as asset base URL —
refuting "the custom subdomain is used only when … *both* the custom-domain
setup and the DNS record creation succeed". -/
theorem c4_counterexample :
    (publishModel c4CounterEnv).2 =
      .published "https://artist-album-audio.example.com"
        "https://album.pages.dev" ∧
    c4CounterEnv.createDnsRecordR2 = .error "boom" := ⟨by decide, rfl⟩

/-- Witness for `c4_asset_base_url` at a concrete environment. -/
theorem c4_asset_base_url_witness :
    (cdnStep c4CounterEnv "artist-album").2 =
      .ok ("https://" ++ ("artist-album" ++ "-audio." ++ "example.com")) :=
  (c4_asset_base_url c4CounterEnv).2.2.2.1 "artist-album" "example.com"
    (some "z1") rfl rfl rfl

/-- The control-flow conditions under which `publish` reaches the upload
fan-out: the album parses, the derived name is valid, configuration exists,
the project lookup did not error, the user confirmed (or force), and the
bucket was found or successfully created. -/
def ReachesUploads (env : PublishEnv) : Prop :=
  env.albumTomlExists = true ∧
  derive_project_name env.artist env.album ≠ "" ∧
  derive_project_name env.artist env.album ≠ "-" ∧
  env.configExists = true ∧
  (∃ proj, env.getPagesProject = .ok proj) ∧
  (env.force = true ∨ env.userConfirms = true) ∧
  (env.getR2Bucket = .ok (some ()) ∨
    (env.getR2Bucket = .ok none ∧ env.createR2Bucket = .ok ())) ∧
  env.audioDirExists = true

lemma publishFromAudio_failed (env : PublishEnv) (pn : String) (bex pex : Bool)
    (ha : env.audioDirExists = true)
    (hf : (uploadsStage env.tracks).2.1 ≠ []) :
    publishFromAudio env pn bex pex =
      ((uploadsStage env.tracks).1
        ++ ((uploadsStage env.tracks).2.1).map Event.warn,
       .fatal (toString (uploadsStage env.tracks).2.1.length
          ++ " upload(s) failed")) := by
  unfold publishFromAudio
  rw [if_neg (by simp [ha])]
  dsimp only []
  rw [if_pos (by simpa using hf)]

lemma publishModel_uploads_failed (env : PublishEnv) (hr : ReachesUploads env)
    (hf : (uploadsStage env.tracks).2.1 ≠ []) :
    ∃ pre, (publishModel env).1 = pre ++ ((uploadsStage env.tracks).1
        ++ ((uploadsStage env.tracks).2.1).map Event.warn) ∧
      (publishModel env).2 =
        .fatal (toString (uploadsStage env.tracks).2.1.length
          ++ " upload(s) failed") := by
  obtain ⟨h1, h2a, h2b, h3, ⟨proj, hp⟩, h4, hb, ha⟩ := hr
  unfold publishModel
  rw [if_neg (by simp [h1])]
  dsimp only []
  rw [if_neg (by simp [h2a, h2b])]
  rw [if_neg (by simp [h3])]
  rw [hp]
  dsimp only []
  rw [if_neg (by rcases h4 with h | h <;> simp [h])]
  rcases hb with hb | ⟨hb, hc⟩
  · rw [hb]
    dsimp only []
    rw [publishFromAudio_failed env _ true proj.isSome ha hf]
    exact ⟨Event.getPagesProject ::
      (if env.force then [] else [Event.promptConfirm]) ++ [Event.getR2Bucket],
      by simp, rfl⟩
  · rw [hb]
    dsimp only []
    rw [hc]
    dsimp only []
    rw [publishFromAudio_failed env _ false proj.isSome ha hf]
    exact ⟨Event.getPagesProject ::
      (if env.force then [] else [Event.promptConfirm])
      ++ [Event.getR2Bucket, Event.createR2Bucket],
      by simp, rfl⟩

lemma publishModel_no_delete (env : PublishEnv) :
    ∀ e ∈ (publishModel env).1, isDeleteEv e = false := by
  obtain ⟨pre, t, htr, hpre, ht⟩ := publishModel_trace env
  intro e he
  rw [htr] at he
  rcases List.mem_append.mp he with he | he
  · rcases hpre e he with rfl | rfl | rfl | rfl <;> simp [isDeleteEv]
  · rcases ht with rfl | ⟨bex, proj, _, rfl⟩
    · simp at he
    · exact publishFromAudio_class env _ bex proj.isSome e he

/-- C3.  When some track's upload task exhausts all 5 attempts (and the
run reaches the upload stage), every sibling task still runs to its terminal
state — the fan-out trace is exactly the concatenation of every task's full
trace — and only after it does `publish` abort, with the aggregate
`"{n} upload(s) failed"` error, after reporting each failed track by name
(the task error `"{file}: Failed after 5 attempts - …"` is in the failure
list and surfaces as a warning event); no delete, rollback or abort of any
already-uploaded object is ever issued by `publish`. -/
theorem c3_failed_upload_aggregation (env : PublishEnv) (tr : Track)
    (hr : ReachesUploads env) (htr : tr ∈ env.tracks)
    (hex : tr.fileExists = true) (hread : tr.read = none)
    (hfail : ∀ i, 1 ≤ i → i ≤ 5 → (tr.put i).isSome = true) :
    (∃ e5, tr.put 5 = some e5 ∧
      (tr.file ++ ": Failed after 5 attempts - " ++ e5)
        ∈ (uploadsStage env.tracks).2.1) ∧
    (publishModel env).2 =
      .fatal (toString (uploadsStage env.tracks).2.1.length
        ++ " upload(s) failed") ∧
    (∃ pre, (publishModel env).1 = pre ++ ((uploadsStage env.tracks).1
        ++ ((uploadsStage env.tracks).2.1).map Event.warn)) ∧
    (uploadsStage env.tracks).1 =
      env.tracks.flatMap (fun t => if t.fileExists then (uploadTask t).1 else []) ∧
    (∀ m ∈ (uploadsStage env.tracks).2.1,
      Event.warn m ∈ (publishModel env).1) ∧
    (∀ e ∈ (publishModel env).1, isDeleteEv e = false) := by
  obtain ⟨e5, he5, hmsg, _⟩ := uploadTask_exhausted tr hread
    (hfail 1 (by omega) (by omega)) (hfail 2 (by omega) (by omega))
    (hfail 3 (by omega) (by omega)) (hfail 4 (by omega) (by omega))
    (hfail 5 (by omega) (by omega))
  have hfmem := uploadsStage_mem_fail env.tracks tr htr hex _ hmsg
  have hfne : (uploadsStage env.tracks).2.1 ≠ [] := by
    intro h0
    rw [h0] at hfmem
    simp at hfmem
  obtain ⟨pre, htrace, hres⟩ := publishModel_uploads_failed env hr hfne
  refine ⟨⟨e5, he5, hfmem⟩, hres, ⟨pre, htrace⟩,
    uploadsStage_events env.tracks, ?_, publishModel_no_delete env⟩
  intro m hm
  rw [htrace]
  refine List.mem_append.mpr (Or.inr (List.mem_append.mpr (Or.inr ?_)))
  exact List.mem_map.mpr ⟨m, hm, rfl⟩

/-- A track whose every PUT attempt fails. -/
def c3BadTrack : Track where
  file := "two.flac"
  fileExists := true
  read := none
  put := fun _ => some "timeout"

/-- A track that succeeds on the first attempt. -/
def c3GoodTrack : Track where
  file := "one.flac"
  fileExists := true
  read := none
  put := fun _ => none

/-- A `publish` environment with one succeeding and one exhausting track. -/
def c3WitnessEnv : PublishEnv where
  artist := "Artist"
  album := "Album"
  albumTomlExists := true
  configExists := true
  accountId := "acc"
  baseDomain := none
  subdomain := none
  force := true
  userConfirms := true
  getPagesProject := .ok (some ())
  getR2Bucket := .ok (some ())
  createR2Bucket := .ok ()
  audioDirExists := true
  tracks := [c3GoodTrack, c3BadTrack]
  configureCors := .ok ()
  verifyR2Bucket := .ok (some ())
  addR2CustomDomain := .ok ()
  getDnsZoneR2 := .ok none
  createDnsRecordR2 := .ok ()
  buildSite := .ok ()
  createPagesProject := .ok ()
  uploadDeployment := .ok "https://artist-album.pages.dev"
  getDnsZonePages := .ok none
  createDnsRecordPages := .ok ()

/-- Witness for `c3_failed_upload_aggregation` at a concrete environment. -/
theorem c3_failed_upload_aggregation_witness :
    (publishModel c3WitnessEnv).2 = .fatal "1 upload(s) failed" := by
  have h := c3_failed_upload_aggregation c3WitnessEnv c3BadTrack
    ⟨rfl, by decide, by decide, rfl, ⟨some (), rfl⟩, Or.inl rfl, Or.inl rfl, rfl⟩
    (List.mem_cons_of_mem _ (List.mem_cons_self _ _)) rfl rfl
    (fun i h1 h5 => by interval_cases i <;> rfl)
  rw [h.2.1]
  decide

/-! ## Teardown lemmas -/

lemma deleteObjectsLoop_class (d : String → Option String) (keys : List String) :
    ∀ e ∈ (deleteObjectsLoop d keys).1, ∃ k, e = Event.deleteObject k := by
  induction keys with
  | nil => simp [deleteObjectsLoop]
  | cons k rest ih =>
    intro e he
    unfold deleteObjectsLoop at he
    rcases hd : d k with _ | err <;> rw [hd] at he <;> dsimp only [] at he
    · rcases List.mem_cons.mp he with rfl | he
      · exact ⟨k, rfl⟩
      · exact ih e he
    · simp at he
      exact ⟨k, he⟩

lemma deleteObjectsLoop_success (d : String → Option String) (keys : List String)
    (h : (deleteObjectsLoop d keys).2 = none) :
    ∀ k ∈ keys, d k = none ∧
      Event.deleteObject k ∈ (deleteObjectsLoop d keys).1 := by
  induction keys with
  | nil => simp
  | cons k0 rest ih =>
    intro k hk
    unfold deleteObjectsLoop at h ⊢
    rcases hd : d k0 with _ | err <;> rw [hd] at h <;> dsimp only [] at h ⊢
    · rcases List.mem_cons.mp hk with rfl | hk
      · exact ⟨hd, List.mem_cons_self _ _⟩
      · obtain ⟨h1, h2⟩ := ih h k hk
        exact ⟨h1, List.mem_cons_of_mem _ h2⟩
    · simp at h

lemma abortUploadsLoop_class (a : String → Option String) (ups : List String) :
    ∀ e ∈ abortUploadsLoop a ups,
      (∃ k, e = Event.abortMultipartUpload k) ∨ ∃ m, e = Event.warn m := by
  induction ups with
  | nil => simp [abortUploadsLoop]
  | cons u rest ih =>
    intro e he
    unfold abortUploadsLoop at he
    rcases ha : a u with _ | err <;> rw [ha] at he
    · rcases List.mem_cons.mp he with rfl | he
      · exact Or.inl ⟨u, rfl⟩
      · exact ih e he
    · rcases List.mem_cons.mp he with rfl | he
      · exact Or.inl ⟨u, rfl⟩
      rcases List.mem_cons.mp he with rfl | he
      · exact Or.inr ⟨_, rfl⟩
      · exact ih e he

lemma abortUploadsLoop_mem (a : String → Option String) (ups : List String) :
    ∀ u ∈ ups, Event.abortMultipartUpload u ∈ abortUploadsLoop a ups := by
  induction ups with
  | nil => simp
  | cons u0 rest ih =>
    intro u hu
    unfold abortUploadsLoop
    rcases ha : a u0 with _ | err
    · rcases List.mem_cons.mp hu with rfl | hu
      · exact List.mem_cons_self _ _
      · exact List.mem_cons_of_mem _ (ih u hu)
    · rcases List.mem_cons.mp hu with rfl | hu
      · exact List.mem_cons_self _ _
      · exact List.mem_cons_of_mem _ (List.mem_cons_of_mem _ (ih u hu))

lemma emptyBucket_class (env : TeardownEnv) :
    ∀ e ∈ (emptyBucketModel env).1,
      e = Event.listObjects ∨ (∃ k, e = Event.deleteObject k) ∨
      e = Event.listMultipartUploads ∨
      (∃ k, e = Event.abortMultipartUpload k) ∨ ∃ m, e = Event.warn m := by
  intro e he
  unfold emptyBucketModel at he
  rcases hl : env.listObjects with ⟨el⟩ | ⟨keys⟩ <;> rw [hl] at he <;>
    dsimp only [] at he
  · simp at he
    simp [he]
  · rcases hd : (deleteObjectsLoop env.deleteObject keys).2 with _ | err <;>
      rw [hd] at he <;> dsimp only [] at he
    · rcases hm : env.listMultiparts with ⟨em⟩ | ⟨ups⟩ <;> rw [hm] at he <;>
        dsimp only [] at he
      · rcases List.mem_cons.mp he with rfl | he
        · exact Or.inl rfl
        rcases List.mem_append.mp he with he | he
        · exact Or.inr (Or.inl (deleteObjectsLoop_class _ _ e he))
        · simp at he
          simp [he]
      · rcases List.mem_cons.mp he with rfl | he
        · exact Or.inl rfl
        rcases List.mem_append.mp he with he | he
        · rcases List.mem_append.mp he with he | he
          · exact Or.inr (Or.inl (deleteObjectsLoop_class _ _ e he))
          · simp at he
            simp [he]
        · rcases abortUploadsLoop_class _ _ e he with h | h
          · exact Or.inr (Or.inr (Or.inr (Or.inl h)))
          · exact Or.inr (Or.inr (Or.inr (Or.inr h)))
    · rcases List.mem_cons.mp he with rfl | he
      · exact Or.inl rfl
      · exact Or.inr (Or.inl (deleteObjectsLoop_class _ _ e he))

lemma emptyBucket_no_bucket_delete (env : TeardownEnv) :
    Event.deleteR2Bucket ∉ (emptyBucketModel env).1 := by
  intro hmem
  rcases emptyBucket_class env _ hmem with h | ⟨k, h⟩ | h | ⟨k, h⟩ | ⟨m, h⟩ <;>
    simp at h

lemma emptyBucket_success (env : TeardownEnv)
    (h : (emptyBucketModel env).2 = none) :
    (∃ keys, env.listObjects = .ok keys ∧
      ∀ k ∈ keys, env.deleteObject k = none ∧
        Event.deleteObject k ∈ (emptyBucketModel env).1) ∧
    (∃ ups, env.listMultiparts = .ok ups ∧
      ∀ u ∈ ups, Event.abortMultipartUpload u ∈ (emptyBucketModel env).1) := by
  unfold emptyBucketModel at h ⊢
  rcases hl : env.listObjects with ⟨el⟩ | ⟨keys⟩ <;> rw [hl] at h <;>
    try dsimp only [] at h ⊢
  · simp at h
  · rcases hd : (deleteObjectsLoop env.deleteObject keys).2 with _ | err <;>
      rw [hd] at h <;> try dsimp only [] at h ⊢
    · rcases hm : env.listMultiparts with ⟨em⟩ | ⟨ups⟩ <;> rw [hm] at h <;>
        try dsimp only [] at h ⊢
      · simp at h
      · constructor
        · refine ⟨keys, rfl, ?_⟩
          intro k hk
          obtain ⟨h1, h2⟩ := deleteObjectsLoop_success env.deleteObject keys hd k hk
          exact ⟨h1, List.mem_cons_of_mem _
            (List.mem_append.mpr (Or.inl (List.mem_append.mpr (Or.inl h2))))⟩
        · refine ⟨ups, rfl, ?_⟩
          intro u hu
          exact List.mem_cons_of_mem _
            (List.mem_append.mpr (Or.inr (abortUploadsLoop_mem _ _ u hu)))
    · simp at h

lemma teardownBucketStep_delete (env : TeardownEnv) (bex : Bool) :
    (Event.deleteR2Bucket ∈ (teardownBucketStep env bex).1 →
      bex = true ∧ (emptyBucketModel env).2 = none ∧
      ∃ B, (teardownBucketStep env bex).1
          = (emptyBucketModel env).1 ++ Event.deleteR2Bucket :: B) ∧
    (∀ m, (emptyBucketModel env).2 = some m →
      Event.deleteR2Bucket ∉ (teardownBucketStep env bex).1) := by
  unfold teardownBucketStep
  by_cases hbx : bex = true
  · rw [if_pos hbx]
    dsimp only []
    rcases he : (emptyBucketModel env).2 with _ | m
    · rcases hd : env.deleteR2Bucket with ⟨ed⟩ | ⟨⟩ <;> constructor
      · intro _
        exact ⟨hbx, rfl, [Event.warn ("Failed to delete R2 bucket: " ++ ed)], by simp⟩
      · intro m hm
        simp at hm
      · intro _
        exact ⟨hbx, rfl, [], by simp⟩
      · intro m hm
        simp at hm
    · constructor
      · intro hmem
        exfalso
        rcases List.mem_append.mp hmem with h | h
        · exact emptyBucket_no_bucket_delete env h
        · simp at h
      · intro m' _ hmem
        rcases List.mem_append.mp hmem with h | h
        · exact emptyBucket_no_bucket_delete env h
        · simp at h
  · simp only [Bool.not_eq_true] at hbx
    rw [hbx]
    simp only [Bool.false_eq_true, if_false]
    exact ⟨fun h => absurd h (by simp), fun m _ h => by simp at h⟩

lemma teardownModel_trace (env : TeardownEnv) :
    ∃ pre t, (teardownModel env).1 = pre ++ t ∧
      (∀ e ∈ pre, e = Event.getPagesProject ∨ e = Event.getR2Bucket ∨
        e = Event.promptConfirm ∨ e = Event.deletePagesProject) ∧
      (t = [] ∨ ∃ bex, t = (teardownBucketStep env bex).1) := by
  unfold teardownModel
  by_cases h1 : env.albumTomlExists = true
  · rw [if_neg (by simp [h1])]
    dsimp only []
    by_cases h2 : derive_project_name env.artist env.album = "" ∨
        derive_project_name env.artist env.album = "-"
    · rw [if_pos h2]
      exact ⟨[], [], by simp, by simp, Or.inl rfl⟩
    · rw [if_neg h2]
      by_cases h3 : env.configExists = true
      · rw [if_neg (by simp [h3])]
        rcases hp : env.getPagesProject with ⟨ep⟩ | ⟨proj⟩ <;> try dsimp only []
        · exact ⟨[Event.getPagesProject], [], by simp, by simp, Or.inl rfl⟩
        · rcases hb : env.getR2Bucket with ⟨eb⟩ | ⟨bucket⟩ <;> try dsimp only []
          · exact ⟨[Event.getPagesProject, Event.getR2Bucket], [],
              by simp, by simp, Or.inl rfl⟩
          · have hconf : ∀ e ∈ (if env.force then ([] : List Event)
                else [Event.promptConfirm]),
                e = Event.getPagesProject ∨ e = Event.getR2Bucket ∨
                e = Event.promptConfirm ∨ e = Event.deletePagesProject := by
              intro e he
              by_cases hfc : env.force = true <;> simp [hfc] at he
              simp [he]
            by_cases h5 : ¬ (proj.isSome = true) ∧ ¬ (bucket.isSome = true)
            · rw [if_pos h5]
              exact ⟨[Event.getPagesProject, Event.getR2Bucket], [],
                by simp, by simp, Or.inl rfl⟩
            · rw [if_neg h5]
              by_cases h6 : ¬ (env.force = true) ∧ env.typedName ≠
                  derive_project_name env.artist env.album
              · rw [if_pos h6]
                refine ⟨Event.getPagesProject :: Event.getR2Bucket ::
                  (if env.force then [] else [Event.promptConfirm]), [],
                  by simp, ?_, Or.inl rfl⟩
                intro e he
                rcases List.mem_cons.mp he with rfl | he
                · simp
                rcases List.mem_cons.mp he with rfl | he
                · simp
                · exact hconf e he
              · rw [if_neg h6]
                unfold teardownDeletions
                by_cases hpx : proj.isSome = true
                · rw [if_pos hpx]
                  rcases hd : env.deletePagesProject with ⟨ed⟩ | ⟨⟩ <;>
                    try dsimp only []
                  · refine ⟨Event.getPagesProject :: Event.getR2Bucket ::
                      (if env.force then [] else [Event.promptConfirm])
                      ++ [Event.deletePagesProject], [], by simp, ?_, Or.inl rfl⟩
                    intro e he
                    rcases List.mem_cons.mp he with rfl | he
                    · simp
                    rcases List.mem_cons.mp he with rfl | he
                    · simp
                    rcases List.mem_append.mp he with he | he
                    · exact hconf e he
                    · simp at he
                      simp [he]
                  · refine ⟨Event.getPagesProject :: Event.getR2Bucket ::
                      (if env.force then [] else [Event.promptConfirm])
                      ++ [Event.deletePagesProject],
                      (teardownBucketStep env bucket.isSome).1,
                      by simp, ?_, Or.inr ⟨bucket.isSome, rfl⟩⟩
                    intro e he
                    rcases List.mem_cons.mp he with rfl | he
                    · simp
                    rcases List.mem_cons.mp he with rfl | he
                    · simp
                    rcases List.mem_append.mp he with he | he
                    · exact hconf e he
                    · simp at he
                      simp [he]
                · simp only [Bool.not_eq_true] at hpx
                  rw [hpx]
                  simp only [Bool.false_eq_true, if_false]
                  refine ⟨Event.getPagesProject :: Event.getR2Bucket ::
                    (if env.force then [] else [Event.promptConfirm]),
                    (teardownBucketStep env bucket.isSome).1,
                    by simp, ?_, Or.inr ⟨bucket.isSome, rfl⟩⟩
                  intro e he
                  rcases List.mem_cons.mp he with rfl | he
                  · simp
                  rcases List.mem_cons.mp he with rfl | he
                  · simp
                  · exact hconf e he
      · simp only [Bool.not_eq_true] at h3
        rw [if_pos (by simp [h3])]
        exact ⟨[], [], by simp, by simp, Or.inl rfl⟩
  · simp only [Bool.not_eq_true] at h1
    rw [if_pos (by simp [h1])]
    exact ⟨[], [], by simp, by simp, Or.inl rfl⟩

/-- C8 (amended).  `delete_r2_bucket` is never called before
`empty_r2_bucket` has returned successfully: whenever the bucket-deletion
event occurs, the emptying succeeded, every listed object was deleted, an
abort was *attempted* for every incomplete multipart upload, and the whole
emptying trace precedes the deletion event; if emptying fails, bucket
deletion is not attempted.  (The specification's "all incomplete multipart
uploads are aborted" is weakened to "an abort is attempted for each": a
failed abort is only warned about and does not prevent bucket deletion — see
the counterexample.) -/
theorem c8_empty_before_bucket_delete (env : TeardownEnv) :
    (Event.deleteR2Bucket ∈ (teardownModel env).1 →
      (emptyBucketModel env).2 = none ∧
      (∃ keys, env.listObjects = .ok keys ∧
        ∀ k ∈ keys, env.deleteObject k = none ∧
          Event.deleteObject k ∈ (emptyBucketModel env).1) ∧
      (∃ ups, env.listMultiparts = .ok ups ∧
        ∀ u ∈ ups, Event.abortMultipartUpload u ∈ (emptyBucketModel env).1) ∧
      (∃ A B, (teardownModel env).1
          = A ++ (emptyBucketModel env).1 ++ Event.deleteR2Bucket :: B ∧
        Event.deleteR2Bucket ∉ A ∧
        Event.deleteR2Bucket ∉ (emptyBucketModel env).1)) ∧
    (∀ m, (emptyBucketModel env).2 = some m →
      Event.deleteR2Bucket ∉ (teardownModel env).1) := by
  obtain ⟨pre, t, htr, hpre, ht⟩ := teardownModel_trace env
  have hpreno : Event.deleteR2Bucket ∉ pre := by
    intro hm
    rcases hpre _ hm with h | h | h | h <;> simp at h
  constructor
  · intro hmem
    rw [htr] at hmem
    rcases List.mem_append.mp hmem with hm | hm
    · exact absurd hm hpreno
    · rcases ht with rfl | ⟨bex, rfl⟩
      · simp at hm
      · obtain ⟨hbex, hnone, B, hBeq⟩ := (teardownBucketStep_delete env bex).1 hm
        obtain ⟨hkeys, hups⟩ := emptyBucket_success env hnone
        refine ⟨hnone, hkeys, hups, pre, B, ?_, hpreno,
          emptyBucket_no_bucket_delete env⟩
        rw [htr, hBeq]
        simp [List.append_assoc]
  · intro m hm hmem
    rw [htr] at hmem
    rcases List.mem_append.mp hmem with h | h
    · exact hpreno h
    · rcases ht with rfl | ⟨bex, rfl⟩
      · simp at h
      · exact (teardownBucketStep_delete env bex).2 m hm h

/-- A teardown environment with no Pages project, an existing bucket, no
objects, and a single incomplete multipart upload whose abort fails. -/
def c8CounterEnv : TeardownEnv where
  artist := "Artist"
  album := "Album"
  albumTomlExists := true
  configExists := true
  force := true
  typedName := "artist-album"
  getPagesProject := .ok none
  getR2Bucket := .ok (some ())
  deletePagesProject := .ok ()
  listObjects := .ok []
  deleteObject := fun _ => none
  listMultiparts := .ok ["m"]
  abortUpload := fun _ => some "denied"
  deleteR2Bucket := .ok ()

/-- C8 counterexample.  A multipart-upload abort fails (the upload is
*not* aborted, only warned about) and `delete_r2_bucket` is still called:
"all incomplete multipart uploads are aborted before `delete_r2_bucket` is
called" does not hold as stated. -/
theorem c8_counterexample :
    c8CounterEnv.abortUpload "m" = some "denied" ∧
    Event.deleteR2Bucket ∈ (teardownModel c8CounterEnv).1 ∧
    (teardownModel c8CounterEnv).2 = TeardownResult.success ∧
    Event.warn ("Failed to abort upload m: denied")
      ∈ (teardownModel c8CounterEnv).1 := by
  refine ⟨rfl, by decide, by decide, by decide⟩

/-- Witness for `c8_empty_before_bucket_delete` at a concrete environment. -/
theorem c8_empty_before_bucket_delete_witness :
    (emptyBucketModel c8CounterEnv).2 = none :=
  ((c8_empty_before_bucket_delete c8CounterEnv).1 (by decide)).1

/-- The control-flow conditions under which `teardown` reaches its deletion
stage: valid album and name, configuration present, and either the force
flag or a correctly typed confirmation name. -/
def ReachesDeletions (env : TeardownEnv) : Prop :=
  env.albumTomlExists = true ∧
  derive_project_name env.artist env.album ≠ "" ∧
  derive_project_name env.artist env.album ≠ "-" ∧
  env.configExists = true ∧
  (env.force = true ∨ env.typedName = derive_project_name env.artist env.album)

lemma teardownModel_deletions (env : TeardownEnv) (hr : ReachesDeletions env)
    (proj bucket : Option Unit)
    (hp : env.getPagesProject = .ok proj) (hb : env.getR2Bucket = .ok bucket)
    (hex : proj.isSome = true ∨ bucket.isSome = true) :
    teardownModel env =
      ((Event.getPagesProject :: Event.getR2Bucket ::
        (if env.force then [] else [Event.promptConfirm]))
          ++ (teardownDeletions env proj.isSome bucket.isSome).1,
       (teardownDeletions env proj.isSome bucket.isSome).2) := by
  obtain ⟨h1, h2a, h2b, h3, h4⟩ := hr
  unfold teardownModel
  rw [if_neg (by simp [h1])]
  dsimp only []
  rw [if_neg (by simp [h2a, h2b])]
  rw [if_neg (by simp [h3])]
  rw [hp]
  dsimp only []
  rw [hb]
  dsimp only []
  rw [if_neg (by rcases hex with h | h <;> simp [h])]
  rw [if_neg (by rcases h4 with h | h <;> simp [h])]

/-- C7 (amended).  In a teardown where both the project and the bucket
exist: bucket-side failures never block completion and are each reported —
an emptying failure yields a warning, skips the bucket deletion, and the
command still returns success; a bucket-deletion failure yields a warning
and the command still returns success — but a *project-deletion* failure
aborts teardown before any bucket step is attempted (the `?` on
deploy.rs line 1486), so the two halves are not independent in that
direction, correcting the claim. -/
theorem c7_teardown_failure_handling (env : TeardownEnv)
    (hr : ReachesDeletions env)
    (hp : env.getPagesProject = .ok (some ()))
    (hb : env.getR2Bucket = .ok (some ())) :
    (∀ e, env.deletePagesProject = .error e →
      (teardownModel env).2 = .fatal e ∧
      Event.listObjects ∉ (teardownModel env).1 ∧
      Event.deleteR2Bucket ∉ (teardownModel env).1) ∧
    (∀ m, env.deletePagesProject = .ok () →
      (emptyBucketModel env).2 = some m →
      (teardownModel env).2 = .success ∧
      Event.warn ("Failed to empty R2 bucket: " ++ m) ∈ (teardownModel env).1 ∧
      Event.deleteR2Bucket ∉ (teardownModel env).1) ∧
    (∀ e, env.deletePagesProject = .ok () →
      (emptyBucketModel env).2 = none → env.deleteR2Bucket = .error e →
      (teardownModel env).2 = .success ∧
      Event.deleteR2Bucket ∈ (teardownModel env).1 ∧
      Event.warn ("Failed to delete R2 bucket: " ++ e) ∈ (teardownModel env).1) := by
  have htm := teardownModel_deletions env hr (some ()) (some ()) hp hb (Or.inl rfl)
  refine ⟨?_, ?_, ?_⟩
  · intro e hde
    have hd : teardownDeletions env (some () : Option Unit).isSome
        (some () : Option Unit).isSome = ([Event.deletePagesProject], .fatal e) := by
      unfold teardownDeletions
      simp [hde]
    rw [htm, hd]
    refine ⟨rfl, ?_, ?_⟩ <;> by_cases hf : env.force = true <;> simp [hf]
  · intro m hde hm
    have hd : teardownDeletions env (some () : Option Unit).isSome
        (some () : Option Unit).isSome =
        (Event.deletePagesProject ::
          ((emptyBucketModel env).1
            ++ [Event.warn ("Failed to empty R2 bucket: " ++ m)]), .success) := by
      unfold teardownDeletions teardownBucketStep
      simp [hde, hm]
    rw [htm, hd]
    refine ⟨rfl, ?_, ?_⟩
    · by_cases hf : env.force = true <;> simp [hf]
    · intro hmem
      rcases List.mem_append.mp hmem with hmem | hmem
      · by_cases hf : env.force = true <;> simp [hf] at hmem
      · rcases List.mem_cons.mp hmem with hmem | hmem
        · simp at hmem
        rcases List.mem_append.mp hmem with hmem | hmem
        · exact emptyBucket_no_bucket_delete env hmem
        · simp at hmem
  · intro e hde hm hdb
    have hd : teardownDeletions env (some () : Option Unit).isSome
        (some () : Option Unit).isSome =
        (Event.deletePagesProject ::
          ((emptyBucketModel env).1 ++ [Event.deleteR2Bucket,
            Event.warn ("Failed to delete R2 bucket: " ++ e)]), .success) := by
      unfold teardownDeletions teardownBucketStep
      simp [hde, hm, hdb]
    rw [htm, hd]
    refine ⟨rfl, ?_, ?_⟩ <;> by_cases hf : env.force = true <;> simp [hf]

/-- A teardown environment in which both resources exist and the Pages
project deletion fails. -/
def c7CounterEnv : TeardownEnv where
  artist := "Artist"
  album := "Album"
  albumTomlExists := true
  configExists := true
  force := true
  typedName := "artist-album"
  getPagesProject := .ok (some ())
  getR2Bucket := .ok (some ())
  deletePagesProject := .error "boom"
  listObjects := .ok []
  deleteObject := fun _ => none
  listMultiparts := .ok []
  abortUpload := fun _ => none
  deleteR2Bucket := .ok ()

/-- C7 counterexample.  Both resources exist, the project deletion fails,
and teardown aborts before attempting either the bucket emptying or the
bucket deletion — refuting "a failure of the project-deletion step does not
prevent the bucket-emptying and bucket-deletion steps from being
attempted". -/
theorem c7_counterexample :
    c7CounterEnv.deletePagesProject = .error "boom" ∧
    c7CounterEnv.getR2Bucket = .ok (some ()) ∧
    (teardownModel c7CounterEnv).2 = TeardownResult.fatal "boom" ∧
    Event.listObjects ∉ (teardownModel c7CounterEnv).1 ∧
    Event.deleteR2Bucket ∉ (teardownModel c7CounterEnv).1 := by
  refine ⟨rfl, rfl, by decide, by decide, by decide⟩

/-- Witness for `c7_teardown_failure_handling` at a concrete environment. -/
theorem c7_teardown_failure_handling_witness :
    (teardownModel c7CounterEnv).2 = TeardownResult.fatal "boom" :=
  ((c7_teardown_failure_handling c7CounterEnv
    ⟨rfl, by decide, by decide, rfl, Or.inl rfl⟩ rfl rfl).1 "boom" rfl).1

/-- C10.  When neither the Pages project nor the companion bucket exists,
`teardown` returns success immediately after the two lookups: no
confirmation prompt is shown and no delete, empty or abort call is
issued. -/
theorem c10_nothing_to_delete (env : TeardownEnv)
    (h1 : env.albumTomlExists = true)
    (h2 : derive_project_name env.artist env.album ≠ "")
    (h3 : derive_project_name env.artist env.album ≠ "-")
    (h4 : env.configExists = true)
    (hp : env.getPagesProject = .ok none)
    (hb : env.getR2Bucket = .ok none) :
    teardownModel env = ([Event.getPagesProject, Event.getR2Bucket], .success) ∧
    Event.promptConfirm ∉ (teardownModel env).1 ∧
    (∀ e ∈ (teardownModel env).1, isDeleteEv e = false) ∧
    Event.listObjects ∉ (teardownModel env).1 := by
  have heq : teardownModel env
      = ([Event.getPagesProject, Event.getR2Bucket], .success) := by
    unfold teardownModel
    rw [if_neg (by simp [h1])]
    dsimp only []
    rw [if_neg (by simp [h2, h3])]
    rw [if_neg (by simp [h4])]
    rw [hp]
    dsimp only []
    rw [hb]
    dsimp only []
    rw [if_pos (by simp)]
  refine ⟨heq, ?_, ?_, ?_⟩ <;> rw [heq] <;> decide

/-- A teardown environment in which neither resource exists. -/
def c10WitnessEnv : TeardownEnv where
  artist := "Artist"
  album := "Album"
  albumTomlExists := true
  configExists := true
  force := false
  typedName := ""
  getPagesProject := .ok none
  getR2Bucket := .ok none
  deletePagesProject := .ok ()
  listObjects := .ok []
  deleteObject := fun _ => none
  listMultiparts := .ok []
  abortUpload := fun _ => none
  deleteR2Bucket := .ok ()

/-- Witness for `c10_nothing_to_delete` at a concrete environment. -/
theorem c10_nothing_to_delete_witness :
    teardownModel c10WitnessEnv
      = ([Event.getPagesProject, Event.getR2Bucket], TeardownResult.success) :=
  (c10_nothing_to_delete c10WitnessEnv rfl (by decide) (by decide) rfl
    rfl rfl).1
